import Mathlib

/-!
# consulservice: registration lifecycle

A shallow embedding of `consulservice.go`.  The package has three functions:
`NewService`, `healthCheckHandler` and `(*Service).handleDeregistrationOnExit`.

The calls the package makes into its collaborators (the Consul client, the
UUID generator, `net/http`, `os/signal`, `log`, `fmt`) are recorded as an
effect trace; what the collaborators answer is supplied by an environment
record, so every theorem quantifies over all possible answers.
-/

namespace ConsulService

/-! ## Go values -/

/-- A Go `error` value: either a plain error carrying its message, or the
result of `fmt.Errorf` with a `%w` verb, which keeps the wrapped error. -/
inductive GoError where
  | base (msg : String)
  | wrapped (msg : String) (cause : GoError)
  deriving DecidableEq, Repr

/-- The method `Error()` of a Go error. -/
def GoError.Error : GoError → String
  | .base msg => msg
  | .wrapped msg _ => msg

/-- The method `Unwrap()` as `errors.Unwrap` sees it. -/
def GoError.Unwrap : GoError → Option GoError
  | .base _ => none
  | .wrapped _ cause => some cause

/-- The digits of `n` in base ten, least significant digit first.  The first
argument bounds the number of digits. -/
def digitsRev : Nat → Nat → List Char
  | 0, _ => []
  | fuel + 1, n =>
    let d := Char.ofNat (48 + n % 10)
    if n / 10 = 0 then [d] else d :: digitsRev fuel (n / 10)

/-- The verb `%d` of `fmt` applied to a Go `int`: a minus sign for a negative
number, then the decimal digits without padding. -/
def decimal (n : Int) : String :=
  let digits := String.mk (digitsRev (n.natAbs + 1) n.natAbs).reverse
  if n < 0 then "-" ++ digits else digits

/-- The number that a string of decimal digits stands for, most significant
digit first. -/
def numeralValue (cs : List Char) : Nat :=
  cs.foldl (fun acc c => 10 * acc + (c.toNat - 48)) 0

/-- Whether the characters are a decimal numeral in its usual form: digits
only, at least one, and no leading zero unless the numeral is the single digit
zero. -/
def isNumeral (cs : List Char) : Bool :=
  cs.all Char.isDigit && (cs.length == 1 || (decide (1 < cs.length) && cs.head? != some '0'))

/-- The integer that a decimal rendering stands for: an optional minus sign
followed by a numeral (not zero after a minus sign).  This is the reading
against which `decimal` is checked; it shares nothing with the way `decimal`
produces its digits. -/
def readInt (s : String) : Option Int :=
  match s.data with
  | [] => none
  | c :: cs =>
    if c = '-' then
      if isNumeral cs && numeralValue cs != 0 then some (-(numeralValue cs : Int)) else none
    else if isNumeral (c :: cs) then some (numeralValue (c :: cs) : Int) else none

/-- The call `fmt.Errorf(msg ++ ": %w", err)`: the message is `msg`, a colon,
a blank and the message of `err`; `err` stays reachable through `Unwrap`. -/
def Errorf (msg : String) (err : GoError) : GoError :=
  .wrapped (msg ++ ": " ++ err.Error) err

/-- A handle on an `*api.Client`. -/
structure Client where
  handle : Nat
  deriving DecidableEq, Repr

/-- The struct `Service` of the package. -/
structure Service where
  client : Client
  ID : String
  deriving DecidableEq, Repr

/-- The fields of `api.AgentServiceCheck` that the package sets. -/
structure AgentServiceCheck where
  HTTP : String
  Interval : String
  Timeout : String
  deriving DecidableEq, Repr

/-- The fields of `api.AgentServiceRegistration` that the package sets; every
other field keeps its zero value. -/
structure AgentServiceRegistration where
  ID : String
  Name : String
  Tags : List String
  Address : String
  Port : Int
  Check : Option AgentServiceCheck
  deriving DecidableEq, Repr

/-- Process signals: the two the package subscribes to, and any other signal,
given by its number and by whether its action in a Go process that has not
subscribed to it ends the process (it does for SIGHUP, SIGQUIT and SIGKILL; it
does not for SIGUSR1, SIGCHLD or SIGWINCH). -/
inductive Signal where
  | SIGINT
  | SIGTERM
  | other (n : Nat) (endsProcess : Bool)
  deriving DecidableEq, Repr

/-- Whether the signal ends a Go process that has not subscribed to it.  For
SIGINT and SIGTERM that is the default action. -/
def Signal.ends : Signal → Bool
  | .SIGINT => true
  | .SIGTERM => true
  | .other _ endsProcess => endsProcess

/-! ## HTTP -/

/-- What a handler can see of an `*http.Request`.  The path is kept as it was
received, in escaped form (`r.URL.EscapedPath()`); it is `*` for a request
whose target is the asterisk form. -/
structure Request where
  method : String
  escapedPath : String
  headers : List (String × String)
  body : String
  deriving DecidableEq, Repr

/-- The value of a hexadecimal digit. -/
def hexValue (c : Char) : Option Nat :=
  if '0' ≤ c ∧ c ≤ '9' then some (c.toNat - 48)
  else if 'a' ≤ c ∧ c ≤ 'f' then some (c.toNat - 87)
  else if 'A' ≤ c ∧ c ≤ 'F' then some (c.toNat - 55)
  else none

/-- Percent-decoding as in `url.PathUnescape`: `none` when a percent sign is
not followed by two hexadecimal digits.  A decoded byte is kept as one
character. -/
def unescape : List Char → Option (List Char)
  | [] => some []
  | c :: rest =>
    if c = '%' then
      match rest with
      | a :: b :: rest2 =>
        match hexValue a, hexValue b, unescape rest2 with
        | some x, some y, some out => some (Char.ofNat (16 * x + y) :: out)
        | _, _, _ => none
      | _ => none
    else (unescape rest).map (c :: ·)

/-- The function `pathUnescape` of `net/http`: the decoded text, or the text
itself when it cannot be decoded. -/
def pathUnescape (cs : List Char) : List Char :=
  (unescape cs).getD cs

/-- The decoded path of the request, `r.URL.Path`. -/
def Request.path (r : Request) : String :=
  String.mk (pathUnescape r.escapedPath.data)

/-- The state of an `http.ResponseWriter`: whether the status line has been
written, the status, and the body bytes written so far. -/
structure ResponseWriter where
  wroteHeader : Bool
  status : Nat
  body : String
  deriving DecidableEq, Repr

/-- A writer no handler has touched yet. -/
def ResponseWriter.fresh : ResponseWriter :=
  { wroteHeader := false, status := 0, body := "" }

/-- The method `WriteHeader`: the first call fixes the status, later calls are
ignored. -/
def ResponseWriter.WriteHeader (w : ResponseWriter) (code : Nat) : ResponseWriter :=
  if w.wroteHeader then w else { w with wroteHeader := true, status := code }

/-- The method `Write`: sends the status 200 first when no status has been
written, then appends the bytes. -/
def ResponseWriter.Write (w : ResponseWriter) (data : String) : ResponseWriter :=
  let w1 := if w.wroteHeader then w else w.WriteHeader 200
  { w1 with body := w1.body ++ data }

/-- The constant `http.StatusOK`. -/
def StatusOK : Nat := 200

/-- An `http.HandlerFunc`. -/
abbrev Handler := ResponseWriter → Request → ResponseWriter

/-- The function `healthCheckHandler`. -/
def healthCheckHandler : Handler := fun w _r =>
  (w.WriteHeader StatusOK).Write "OK"

/-! ## The default `ServeMux` of `net/http` -/

/-- The handlers registered on `http.DefaultServeMux`, each with its pattern,
in registration order.  Patterns are path patterns (no host, no method). -/
abbrev ServeMux := List (String × Handler)

/-- The patterns registered on the mux. -/
def ServeMux.patterns (mux : ServeMux) : List String :=
  mux.map Prod.fst

/-- Whether `http.HandleFunc` accepts the pattern on this mux: no registered
pattern is the same string, and none conflicts with it.  The first argument is
the conflict relation of `net/http` between two different pattern strings
(for instance another spelling of the same path, such as `/%68ealth` for
`/health`); it depends on the version of the library and is left open. -/
def ServeMux.accepts (conflicts : String → String → Bool) (mux : ServeMux)
    (pattern : String) : Bool :=
  mux.patterns.all fun q => q != pattern && !conflicts q pattern

/-- The function `http.HandleFunc`: registers the handler under the pattern.
`net/http` panics when the pattern is already registered or conflicts with a
registered one; `none` stands for that panic. -/
def ServeMux.HandleFunc (conflicts : String → String → Bool) (mux : ServeMux)
    (pattern : String) (h : Handler) : Option ServeMux :=
  if mux.accepts conflicts pattern then some (mux ++ [(pattern, h)]) else none

/-- Splits the characters of a path at each slash. -/
def splitSlash : List Char → List (List Char)
  | [] => [[]]
  | c :: cs =>
    match splitSlash cs with
    | [] => [[]]
    | seg :: rest => if c = '/' then [] :: seg :: rest else (c :: seg) :: rest

/-- The elements of a rooted path after `path.Clean`: empty elements and `.`
are dropped, `..` removes the element before it (and is dropped at the root).
The first argument is the stack of kept elements, last kept first. -/
def cleanElems : List (List Char) → List (List Char) → List (List Char)
  | stack, [] => stack.reverse
  | stack, e :: es =>
    if e = [] ∨ e = ['.'] then cleanElems stack es
    else if e = ['.', '.'] then cleanElems stack.tail es
    else cleanElems (e :: stack) es

/-- The function `cleanPath` of `net/http`: the canonical form of a request
path.  An empty path is the root, a path is made rooted, `path.Clean` is
applied, and a trailing slash is kept. -/
def cleanPath (p : String) : String :=
  if p = "" then "/" else
  let p1 := if p.data.head? = some '/' then p else "/" ++ p
  let np := "/" ++ "/".intercalate ((cleanElems [] (splitSlash p1.data)).map String.mk)
  if p1.data.getLast? = some '/' ∧ np ≠ "/" then np ++ "/" else np

/-- What the mux decides for a request. -/
inductive Dispatch where
  | handler (pattern : String) (h : Handler)
  | redirect (location : String)
  | notFound

/-- The segments of a path that starts with a slash, each one decoded. -/
def pathSegments (path : List Char) : Option (List (List Char)) :=
  match path with
  | [] => none
  | c :: rest => if c = '/' then some ((splitSlash rest).map pathUnescape) else none

/-- A pattern without method, host or wildcard, as `net/http` reads it: its
decoded segments, and whether it ends in a slash (then it stands for the whole
subtree below these segments). -/
def patternSegments (pattern : String) : Option (List (List Char) × Bool) :=
  match pathSegments pattern.data with
  | none => none
  | some segs => if segs.getLast? = some [] then some (segs.dropLast, true) else some (segs, false)

/-- Whether a pattern that does not end in a slash matches the path: the
segments are the same. -/
def exactMatch (pattern : String) (path : List Char) : Bool :=
  match patternSegments pattern, pathSegments path with
  | some (lits, false), some segs => segs == lits
  | _, _ => false

/-- Whether a pattern that ends in a slash matches the path: the segments of
the pattern come first in the path, and something follows, be it empty. -/
def subtreeMatch (pattern : String) (path : List Char) : Bool :=
  match patternSegments pattern, pathSegments path with
  | some (lits, true), some segs => lits.isPrefixOf segs && decide (lits.length < segs.length)
  | _, _ => false

/-- The most specific registered pattern that matches the path: a pattern
that matches it exactly, or else the longest subtree pattern above it. -/
def ServeMux.lookup (mux : ServeMux) (path : List Char) : Option (String × Handler) :=
  match mux.find? (fun e => exactMatch e.1 path) with
  | some e => some e
  | none =>
    (mux.filter (fun e => subtreeMatch e.1 path)).foldl
      (fun best e =>
        match best with
        | none => some e
        | some b => if b.1.length < e.1.length then some e else some b)
      none

/-- The redirect from `/tree` to `/tree/`: it applies when the path does not
end in a slash, no pattern matches it exactly, and a subtree pattern is the
path followed by a slash. -/
def ServeMux.redirectToPathSlash (mux : ServeMux) (path : List Char) : Bool :=
  decide (path.getLast? ≠ some '/') && (mux.find? (fun e => exactMatch e.1 path)).isNone &&
    mux.any fun e =>
      match patternSegments e.1, pathSegments path with
      | some (lits, true), some segs => lits == segs
      | _, _ => false

/-- The method `(*ServeMux).Handler` for a mux whose patterns have no method,
host or wildcard.  The escaped path is matched, as it is for a `CONNECT`
request and in canonical form for any other; a request whose path is not
canonical is redirected.  An unmatched request gets the not-found handler. -/
def ServeMux.Handler (mux : ServeMux) (r : Request) : Dispatch :=
  let path := if r.method = "CONNECT" then r.escapedPath else cleanPath r.escapedPath
  if mux.redirectToPathSlash path.data then .redirect (path ++ "/")
  else if path ≠ r.escapedPath then .redirect path
  else
    match mux.lookup r.escapedPath.data with
    | some e => .handler e.1 e.2
    | none => .notFound

/-- The method `(*ServeMux).ServeHTTP` as far as the status and the handler
output go.  A request whose target is the asterisk form answers 400.
Otherwise a matched handler runs, a redirect answers with a status 300 + k
(which one depends on the version of `net/http`, so k is left open), an
unmatched request answers 404 with the body of `http.NotFound`.  (The body of
the redirect page is not represented.) -/
def ServeMux.ServeHTTP (k : Fin 100) (mux : ServeMux) (w : ResponseWriter) (r : Request) :
    ResponseWriter :=
  if r.escapedPath = "*" then w.WriteHeader 400
  else
    match mux.Handler r with
    | .handler _ h => h w r
    | .redirect _ => w.WriteHeader (300 + k.val)
    | .notFound => (w.WriteHeader 404).Write "404 page not found\n"

/-- What the server does when the handler has returned: a response whose
status was never written goes out with the status 200. -/
def ResponseWriter.finish (w : ResponseWriter) : ResponseWriter :=
  if w.wroteHeader then w else w.WriteHeader 200

/-- The health endpoint as `http.ListenAndServe(addr, nil)` serves it: the
server answers the request `OPTIONS *` itself, with a handler that writes
nothing, and hands every other request to the default mux. -/
def serverHandler (k : Fin 100) (mux : ServeMux) (r : Request) : ResponseWriter :=
  if r.method = "OPTIONS" ∧ r.escapedPath = "*" then ResponseWriter.fresh.finish
  else (mux.ServeHTTP k ResponseWriter.fresh r).finish

/-! ## Effects -/

/-- One observable step of the package: a call into a collaborator, with the
answer where there is one.  `handleFunc` stands for a handler installed by
`http.HandleFunc`, the two `go` events for the start of a goroutine, and
`logFatal` for `log.Fatal` or `log.Fatalf`, which print and then exit with the
status 1. -/
inductive Event where
  | newClient
  | generateUUID
  | serviceRegister (c : Client) (reg : AgentServiceRegistration) (result : Option GoError)
  | println (line : String)
  | handleFunc (pattern : String)
  | goListenAndServe (addr : String)
  | goHandleDeregistrationOnExit (s : Service)
  | signalNotify (sigs : List Signal)
  | serviceDeregister (c : Client) (id : String) (result : Option GoError)
  | logFatal (msg : String)
  deriving DecidableEq, Repr

/-- The answers of the collaborators: `api.NewClient(api.DefaultConfig())`,
`uuid.GenerateUUID()`, `Agent().ServiceRegister` and
`Agent().ServiceDeregister` (for these two `none` is the `nil` error), and the
pattern conflict relation of `net/http`. -/
structure Env where
  newClient : Except GoError Client
  generateUUID : Except GoError String
  serviceRegister : Client → AgentServiceRegistration → Option GoError
  serviceDeregister : Client → String → Option GoError
  conflicts : String → String → Bool

/-- How a call of `NewService` ends: it returns its pair of results, or it
panics. -/
inductive Outcome where
  | returned (svc : Option Service) (err : Option GoError)
  | panicked
  deriving DecidableEq, Repr

/-- One execution of `NewService` up to its end: the outcome, the effects in
program order, and the default mux afterwards. -/
structure Run where
  outcome : Outcome
  trace : List Event
  mux : ServeMux

/-- The descriptor that `NewService` builds. -/
def serviceRegistration (serviceID serviceName : String) (serviceTags : List String)
    (servicePort : Int) : AgentServiceRegistration :=
  { ID := serviceID
    Name := serviceName
    Tags := serviceTags
    Address := "127.0.0.1"
    Port := servicePort
    Check := some
      { HTTP := "http://127.0.0.1:" ++ decimal servicePort ++ "/health"
        Interval := "10s"
        Timeout := "1s" } }

/-- The function `NewService`, statement by statement.  The first argument
gives the answers of the collaborators, the second the default mux at the
time of the call.  The port is a Go `int`; it is only copied and formatted, so
no overflow can occur.  A call that panics in `http.HandleFunc` has run
everything before it, the registration call included. -/
def NewService (env : Env) (mux : ServeMux) (serviceName : String)
    (serviceTags : List String) (servicePort : Int) : Run :=
  match env.newClient with
  | .error err =>
    { outcome := .returned none (some (Errorf "failed to create Consul client" err))
      trace := [.newClient]
      mux := mux }
  | .ok client =>
    match env.generateUUID with
    | .error err =>
      { outcome := .returned none (some (Errorf "failed to generate service ID" err))
        trace := [.newClient, .generateUUID]
        mux := mux }
    | .ok serviceID =>
      let reg := serviceRegistration serviceID serviceName serviceTags servicePort
      match env.serviceRegister client reg with
      | some err =>
        { outcome := .returned none (some (Errorf "failed to register service" err))
          trace := [.newClient, .generateUUID, .serviceRegister client reg (some err)]
          mux := mux }
      | none =>
        let t := [Event.newClient, .generateUUID, .serviceRegister client reg none,
          .println "Service registered successfully."]
        match mux.HandleFunc env.conflicts "/health" healthCheckHandler with
        | none =>
          { outcome := .panicked
            trace := t
            mux := mux }
        | some mux1 =>
          let s : Service := { client := client, ID := serviceID }
          { outcome := .returned (some s) none
            trace := t ++ [.handleFunc "/health",
              .goListenAndServe (":" ++ decimal servicePort),
              .goHandleDeregistrationOnExit s]
            mux := mux1 }

/-! ## The background tasks -/

/-- Where the goroutine running `handleDeregistrationOnExit` stands. -/
inductive ShutdownPc where
  /-- Created by the `go` statement; `signal.Notify` has not run yet. -/
  | spawned
  /-- Subscribed, blocked on the receive from `signalChan`. -/
  | awaiting
  /-- A signal was received; the announcement and the call are next. -/
  | signalled
  /-- The call `ServiceDeregister` has returned this error value. -/
  | deregReturned (err : Option GoError)
  /-- The function has returned. -/
  | finished
  deriving DecidableEq, Repr

/-- Where the goroutine running `log.Fatal(http.ListenAndServe(...))` stands. -/
inductive ListenerPc where
  /-- Created by the `go` statement; the listener is not bound yet. -/
  | spawned
  /-- Inside `ListenAndServe`, accepting connections. -/
  | serving
  /-- The call `ListenAndServe` has returned this error; `log.Fatal` is next. -/
  | returned (err : GoError)
  deriving DecidableEq, Repr

/-- How a process ended: `os.Exit` with a status, or the default action of a
signal nobody subscribed to. -/
inductive Termination where
  | exit (status : Nat)
  | killed (sig : Signal)
  deriving DecidableEq, Repr

/-- The process after a successful `NewService`: the service value, the two
goroutines, the signal channel (capacity one), the effects so far, and how
the process ended if it has. -/
structure Process where
  svc : Service
  listener : ListenerPc
  shutdown : ShutdownPc
  signalChan : List Signal
  trace : List Event
  terminated : Option Termination
  deriving DecidableEq, Repr

/-- What can happen next: the system delivers a signal, the scheduler lets
the shutdown goroutine run its next statement, the listener binds, the call
`ListenAndServe` returns an error (bind or accept failure), or the scheduler
lets the listener goroutine run `log.Fatal`. -/
inductive Action where
  | deliver (sig : Signal)
  | shutdownStep
  | listenerBound
  | listenReturns (err : GoError)
  | listenerStep
  deriving DecidableEq, Repr

/-- The signals `handleDeregistrationOnExit` subscribes to. -/
def notifySet : List Signal := [.SIGINT, .SIGTERM]

/-- Delivery of a signal.  Before `signal.Notify` has run, SIGINT and SIGTERM
take their default action and end the process.  Afterwards a subscribed
signal is sent to the channel without blocking: it is dropped when the
channel is full.  A signal outside the subscription never reaches the
channel: it ends the process when that is its action, and is ignored
otherwise. -/
def deliver (p : Process) (sig : Signal) : Process :=
  if sig ∈ notifySet then
    match p.shutdown with
    | .spawned => { p with terminated := some (.killed sig) }
    | _ => if p.signalChan.length < 1 then { p with signalChan := p.signalChan ++ [sig] } else p
  else if sig.ends then { p with terminated := some (.killed sig) }
  else p

/-- The next statement of `handleDeregistrationOnExit`.  The second argument
is the answer of `ServiceDeregister`. -/
def handleDeregistrationOnExit (deregister : Client → String → Option GoError)
    (p : Process) : Process :=
  match p.shutdown with
  | .spawned =>
    { p with shutdown := .awaiting, trace := p.trace ++ [.signalNotify notifySet] }
  | .awaiting =>
    match p.signalChan with
    | [] => p
    | _ :: rest => { p with shutdown := .signalled, signalChan := rest }
  | .signalled =>
    let err := deregister p.svc.client p.svc.ID
    { p with
      shutdown := .deregReturned err
      trace := p.trace ++ [.println "Received termination signal, deregistering service...",
        .serviceDeregister p.svc.client p.svc.ID err] }
  | .deregReturned (some err) =>
    { p with
      trace := p.trace ++ [.logFatal ("Failed to deregister service: " ++ err.Error)]
      terminated := some (.exit 1) }
  | .deregReturned none =>
    { p with
      shutdown := .finished
      trace := p.trace ++ [.println "Service deregistered successfully."] }
  | .finished => p

/-- One step of the process.  Nothing happens once the process has ended. -/
def step (deregister : Client → String → Option GoError) (p : Process) (a : Action) : Process :=
  match p.terminated with
  | some _ => p
  | none =>
    match a with
    | .deliver sig => deliver p sig
    | .shutdownStep => handleDeregistrationOnExit deregister p
    | .listenerBound =>
      match p.listener with
      | .spawned => { p with listener := .serving }
      | _ => p
    | .listenReturns err =>
      match p.listener with
      | .returned _ => p
      | _ => { p with listener := .returned err }
    | .listenerStep =>
      match p.listener with
      | .returned err =>
        { p with trace := p.trace ++ [.logFatal err.Error], terminated := some (.exit 1) }
      | _ => p

/-- A whole schedule, action after action. -/
def run (deregister : Client → String → Option GoError) (p : Process) (sched : List Action) : Process :=
  sched.foldl (step deregister) p

/-- The process right after `NewService` has returned the service `s` with the
effects `t`: both goroutines created, nothing else run yet. -/
def Process.start (s : Service) (t : List Event) : Process :=
  { svc := s, listener := .spawned, shutdown := .spawned, signalChan := [],
    trace := t, terminated := none }

/-- The process a run of `NewService` leaves behind, when it returned a
service. -/
def Run.process (r : Run) : Option Process :=
  match r.outcome with
  | .returned (some s) _ => some (Process.start s r.trace)
  | _ => none

/-! ## Reading traces -/

/-- The descriptors of the registration calls in a trace, in order. -/
def registrations (t : List Event) : List AgentServiceRegistration :=
  t.filterMap fun e =>
    match e with
    | .serviceRegister _ reg _ => some reg
    | _ => none

/-- The descriptors of the registration calls that the agent accepted. -/
def registered (t : List Event) : List AgentServiceRegistration :=
  t.filterMap fun e =>
    match e with
    | .serviceRegister _ reg none => some reg
    | _ => none

/-- The IDs of the deregistration calls in a trace, in order. -/
def deregistrations (t : List Event) : List String :=
  t.filterMap fun e =>
    match e with
    | .serviceDeregister _ id _ => some id
    | _ => none

/-- Whether the event starts the health endpoint or the shutdown task:
installing the handler, starting the listener, starting the shutdown
goroutine. -/
def Event.isStart : Event → Bool
  | .handleFunc _ => true
  | .goListenAndServe _ => true
  | .goHandleDeregistrationOnExit _ => true
  | _ => false

/-! ## Concrete inputs -/

/-- Collaborators that all answer with success: the client handle 1 and the
given UUID. -/
def Env.accepting (serviceID : String) : Env :=
  { newClient := .ok { handle := 1 }
    generateUUID := .ok serviceID
    serviceRegister := fun _ _ => none
    serviceDeregister := fun _ _ => none
    conflicts := fun _ _ => false }

/-- Collaborators where the agent refuses the registration call. -/
def Env.refusing (serviceID : String) : Env :=
  { Env.accepting serviceID with
    serviceRegister := fun _ _ => some (.base "connection refused") }

/-- A UUID as `uuid.GenerateUUID` formats it. -/
def sampleID : String := "6ba7b810-9dad-11d1-80b4-00c04fd430c8"

/-- Another UUID. -/
def otherID : String := "6ba7b811-9dad-11d1-80b4-00c04fd430c8"

/-- The default mux that a first, successful `NewService` leaves behind. -/
def muxAfterFirstCall : ServeMux :=
  (NewService (Env.accepting sampleID) [] "orders-svc" ["v1", "prod"] 8080).mux

/-! ## Sequences of calls, invariants of the background tasks -/

/-- Whether one of the three fallible steps of `NewService` fails: client
construction, or else ID generation, or else the registration call. -/
def stepFails (env : Env) (name : String) (tags : List String) (port : Int) : Bool :=
  match env.newClient with
  | .error _ => true
  | .ok c =>
    match env.generateUUID with
    | .error _ => true
    | .ok id => (env.serviceRegister c (serviceRegistration id name tags port)).isSome

/-- Whether a call returned a non-nil error. -/
def Outcome.returnsError : Outcome → Bool
  | .returned _ (some _) => true
  | _ => false

/-- A request that is not a GET, for the path `/health`. -/
def postHealth : Request :=
  { method := "POST", escapedPath := "/health", headers := [], body := "" }

/-- The request `OPTIONS *`. -/
def optionsAsterisk : Request :=
  { method := "OPTIONS", escapedPath := "*", headers := [], body := "" }

/-- A GET request for the path `/healthz`. -/
def getHealthz : Request :=
  { method := "GET", escapedPath := "/healthz", headers := [], body := "" }

/-- A handler that another part of the program may install. -/
def homeHandler : Handler := fun w _r =>
  (w.WriteHeader 200).Write "home"

/-- The default mux after a first, successful `NewService` when the program
also serves a page of its own under `/`. -/
def muxWithHome : ServeMux :=
  muxAfterFirstCall ++ [("/", homeHandler)]

/-- The process that `NewService` for `orders-svc` on port 8080 leaves behind
when every collaborator answers with success. -/
def startedProcess : Process :=
  Process.start { client := { handle := 1 }, ID := sampleID }
    (NewService (Env.accepting sampleID) [] "orders-svc" ["v1", "prod"] 8080).trace

/-- A process whose shutdown task has subscribed, with a SIGTERM waiting in
the channel. -/
def signalledProcess : Process :=
  run (fun _ _ => none)
    (Process.start { client := { handle := 1 }, ID := sampleID } [])
    [.shutdownStep, .deliver .SIGTERM]

/-- The task has not subscribed or is still waiting on an empty channel. -/
def Process.Quiet (p : Process) : Prop :=
  p.signalChan = [] ∧ (p.shutdown = .spawned ∨ p.shutdown = .awaiting)

/-- The bookkeeping of the shutdown task of the service `s`: the process holds
`s` unchanged, no deregistration call is in the trace before the task reaches
the call, and exactly one, for the ID of `s`, from then on. -/
def Process.Consistent (s : Service) (p : Process) : Prop :=
  p.svc = s ∧
  match p.shutdown with
  | .spawned => deregistrations p.trace = []
  | .awaiting => deregistrations p.trace = []
  | .signalled => deregistrations p.trace = []
  | .deregReturned _ => deregistrations p.trace = [s.ID]
  | .finished => deregistrations p.trace = [s.ID]

/-- Whether the action delivers SIGINT or SIGTERM. -/
def Action.isTermination : Action → Bool
  | .deliver .SIGINT => true
  | .deliver .SIGTERM => true
  | _ => false

/-- Whether the action ends the process from outside the shutdown task, or
prepares that: a failure of the listener, or the delivery of a signal outside
the subscription whose action ends the process. -/
def Action.isFatal : Action → Bool
  | .listenReturns _ => true
  | .deliver (.other _ endsProcess) => endsProcess
  | _ => false

/-- The state of a subscribed shutdown task, given whether a SIGINT or SIGTERM
has been delivered so far: the listener has not failed; a waiting task holds
a signal in its channel exactly when one was delivered; a task past the
receive has seen one; the call has been issued once exactly when the task is
past it. -/
def Process.Tracked (seen : Bool) (p : Process) : Prop :=
  (∀ e, p.listener ≠ .returned e) ∧
  match p.shutdown with
  | .spawned => False
  | .awaiting =>
    p.terminated = none ∧ deregistrations p.trace = [] ∧ (p.signalChan ≠ [] ↔ seen = true)
  | .signalled => p.terminated = none ∧ deregistrations p.trace = [] ∧ seen = true
  | .deregReturned _ => (deregistrations p.trace).length = 1 ∧ seen = true
  | .finished => (deregistrations p.trace).length = 1 ∧ seen = true

/-- The arguments of one call of `NewService`, with the answers the
collaborators give during that call. -/
structure Call where
  env : Env
  serviceName : String
  serviceTags : List String
  servicePort : Int

/-- A sequence of `NewService` calls in one process.  Each call sees the
default mux the calls before it left.  A call that panics ends the process,
and with it the sequence, unless the caller recovers from the panic (first
argument). -/
def NewServiceSeq (recovers : Bool) : ServeMux → List Call → List Run
  | _, [] => []
  | mux, c :: cs =>
    let r := NewService c.env mux c.serviceName c.serviceTags c.servicePort
    match r.outcome with
    | .panicked => if recovers then r :: NewServiceSeq recovers r.mux cs else [r]
    | .returned _ _ => r :: NewServiceSeq recovers r.mux cs

/-- The service a run returned, if it returned one. -/
def Run.service (r : Run) : Option Service :=
  match r.outcome with
  | .returned (some s) _ => some s
  | _ => none

/-- Whether the run ended in a panic. -/
def Run.panics (r : Run) : Bool :=
  match r.outcome with
  | .panicked => true
  | _ => false

/-- The services that exist after a sequence of runs: those the runs
returned. -/
def servicesOf (runs : List Run) : List Service :=
  runs.filterMap Run.service

/-- The descriptors the agent accepted over a sequence of runs. -/
def registeredBy : List Run → List AgentServiceRegistration
  | [] => []
  | r :: rs => registered r.trace ++ registeredBy rs

/-- Two calls for the same service on two ports, every collaborator
answering with success. -/
def twoCalls : List Call :=
  [{ env := Env.accepting sampleID, serviceName := "orders-svc",
     serviceTags := ["v1", "prod"], servicePort := 8080 },
   { env := Env.accepting otherID, serviceName := "orders-svc",
     serviceTags := ["v1", "prod"], servicePort := 8081 }]

/-! ## NewService -/

/-- The outcome and the effects of `NewService` when client construction
fails. -/
theorem newService_client_error (env : Env) (mux : ServeMux) (name : String)
    (tags : List String) (port : Int) (err : GoError) (h : env.newClient = .error err) :
    (NewService env mux name tags port).outcome =
        .returned none (some (Errorf "failed to create Consul client" err)) ∧
      (NewService env mux name tags port).trace = [.newClient] := by
  simp [NewService, h]

/-- The outcome and the effects of `NewService` when ID generation fails. -/
theorem newService_uuid_error (env : Env) (mux : ServeMux) (name : String)
    (tags : List String) (port : Int) (c : Client) (err : GoError)
    (hc : env.newClient = .ok c) (h : env.generateUUID = .error err) :
    (NewService env mux name tags port).outcome =
        .returned none (some (Errorf "failed to generate service ID" err)) ∧
      (NewService env mux name tags port).trace = [.newClient, .generateUUID] := by
  simp [NewService, hc, h]

/-- The outcome and the effects of `NewService` when the registration call
fails. -/
theorem newService_register_error (env : Env) (mux : ServeMux) (name : String)
    (tags : List String) (port : Int) (c : Client) (id : String) (err : GoError)
    (hc : env.newClient = .ok c) (hid : env.generateUUID = .ok id)
    (h : env.serviceRegister c (serviceRegistration id name tags port) = some err) :
    (NewService env mux name tags port).outcome =
        .returned none (some (Errorf "failed to register service" err)) ∧
      (NewService env mux name tags port).trace =
        [.newClient, .generateUUID,
          .serviceRegister c (serviceRegistration id name tags port) (some err)] ∧
      (NewService env mux name tags port).mux = mux := by
  simp [NewService, hc, hid, h]

/-- The outcome and the effects of `NewService` when its three fallible steps
succeed and the default mux accepts `/health`. -/
theorem newService_success (env : Env) (mux : ServeMux) (name : String)
    (tags : List String) (port : Int) (c : Client) (id : String)
    (hc : env.newClient = .ok c) (hid : env.generateUUID = .ok id)
    (h : env.serviceRegister c (serviceRegistration id name tags port) = none)
    (hfree : mux.accepts env.conflicts "/health" = true) :
    (NewService env mux name tags port).outcome =
        .returned (some { client := c, ID := id }) none ∧
      (NewService env mux name tags port).trace =
        [.newClient, .generateUUID,
          .serviceRegister c (serviceRegistration id name tags port) none,
          .println "Service registered successfully.",
          .handleFunc "/health",
          .goListenAndServe (":" ++ decimal port),
          .goHandleDeregistrationOnExit { client := c, ID := id }] ∧
      (NewService env mux name tags port).mux = mux ++ [("/health", healthCheckHandler)] := by
  simp [NewService, hc, hid, h, ServeMux.HandleFunc, hfree]

/-- The outcome and the effects of `NewService` when its three fallible steps
succeed and the default mux does not accept `/health`. -/
theorem newService_duplicate (env : Env) (mux : ServeMux) (name : String)
    (tags : List String) (port : Int) (c : Client) (id : String)
    (hc : env.newClient = .ok c) (hid : env.generateUUID = .ok id)
    (h : env.serviceRegister c (serviceRegistration id name tags port) = none)
    (hdup : ¬ mux.accepts env.conflicts "/health" = true) :
    (NewService env mux name tags port).outcome = .panicked ∧
      (NewService env mux name tags port).trace =
        [.newClient, .generateUUID,
          .serviceRegister c (serviceRegistration id name tags port) none,
          .println "Service registered successfully."] := by
  simp [NewService, hc, hid, h, ServeMux.HandleFunc, hdup]

/-- The character of a decimal digit: its value, its class, and when it is
zero. -/
theorem digitChar (d : Nat) (h : d < 10) :
    (Char.ofNat (48 + d)).toNat - 48 = d ∧ (Char.ofNat (48 + d)).isDigit = true ∧
      (Char.ofNat (48 + d) = '0' → d = 0) ∧ Char.ofNat (48 + d) ≠ '-' := by
  interval_cases d <;> decide

/-- The digits that `digitsRev` produces, given enough fuel: at least one, all
of them decimal digits, standing for the number, and the most significant one
is zero only for the number zero. -/
theorem digitsRev_spec (fuel : Nat) : ∀ n, n < fuel →
    digitsRev fuel n ≠ [] ∧ (∀ c ∈ digitsRev fuel n, c.isDigit = true) ∧
    (digitsRev fuel n).foldr (fun c acc => 10 * acc + (c.toNat - 48)) 0 = n ∧
    ((digitsRev fuel n).getLast? = some '0' → n = 0) := by
  induction fuel with
  | zero => intro n h; omega
  | succ fuel ih =>
    intro n hn
    have hd := digitChar (n % 10) (Nat.mod_lt n (by decide))
    unfold digitsRev
    simp only []
    by_cases hq : n / 10 = 0
    · rw [if_pos hq]
      refine ⟨by simp, ?_, ?_, ?_⟩
      · intro c hc
        simp only [List.mem_singleton] at hc
        rw [hc]; exact hd.2.1
      · simp only [List.foldr, Nat.mul_zero, Nat.zero_add]
        rw [hd.1]; omega
      · intro h0
        simp only [List.getLast?_singleton, Option.some.injEq] at h0
        have := hd.2.2.1 h0
        omega
    · rw [if_neg hq]
      have hlt : n / 10 < fuel := by omega
      obtain ⟨hne, hdig, hval, hlast⟩ := ih (n / 10) hlt
      refine ⟨by simp, ?_, ?_, ?_⟩
      · intro c hc
        rcases List.mem_cons.mp hc with h | h
        · rw [h]; exact hd.2.1
        · exact hdig c h
      · simp only [List.foldr]
        rw [hval, hd.1]; omega
      · intro h0
        cases hl : digitsRev fuel (n / 10) with
        | nil => exact absurd hl hne
        | cons x xs =>
          rw [hl, List.getLast?_cons_cons] at h0
          rw [hl] at hlast
          exact absurd (hlast h0) hq

/-- The digits of a number, most significant first, are a numeral in its usual
form that stands for the number, and do not start with a minus sign. -/
theorem numeral_of_digitsRev (n : Nat) :
    isNumeral (digitsRev (n + 1) n).reverse = true ∧
      numeralValue (digitsRev (n + 1) n).reverse = n ∧
      ∃ c cs, (digitsRev (n + 1) n).reverse = c :: cs ∧ c ≠ '-' := by
  obtain ⟨hne, hdig, hval, hlast⟩ := digitsRev_spec (n + 1) n (Nat.lt_succ_self n)
  refine ⟨?_, ?_, ?_⟩
  · unfold isNumeral
    have hall : (digitsRev (n + 1) n).reverse.all Char.isDigit = true := by
      rw [List.all_eq_true]
      intro c hc
      exact hdig c (List.mem_reverse.mp hc)
    rw [hall, Bool.true_and]
    by_cases hlen : (digitsRev (n + 1) n).length = 1
    · simp [hlen]
    · have hpos : 0 < (digitsRev (n + 1) n).length := List.length_pos.mpr hne
      have hgt : 1 < (digitsRev (n + 1) n).length := by omega
      have hn0 : n ≠ 0 := by
        intro h0
        subst h0
        exact hlen rfl
      have hhead : (digitsRev (n + 1) n).reverse.head? ≠ some '0' := by
        rw [List.head?_reverse]
        exact fun h => hn0 (hlast h)
      rw [List.head?_reverse] at hhead
      simp [hgt, hhead]
  · unfold numeralValue
    rw [List.foldl_reverse]
    exact hval
  · cases hr : (digitsRev (n + 1) n).reverse with
    | nil => exact absurd (List.reverse_eq_nil_iff.mp hr) hne
    | cons c cs =>
      refine ⟨c, cs, rfl, ?_⟩
      have hc : c.isDigit = true := hdig c (List.mem_reverse.mp (by rw [hr]; simp))
      intro h
      rw [h] at hc
      exact absurd hc (by decide)

/-- The rendering `decimal n` reads back as `n`, for every integer. -/
theorem readInt_decimal (n : Int) : readInt (decimal n) = some n := by
  obtain ⟨hnum, hval, c, cs, hcs, hc⟩ := numeral_of_digitsRev n.natAbs
  unfold decimal
  simp only []
  by_cases hneg : n < 0
  · rw [if_pos hneg]
    have hdata : ("-" ++ String.mk (digitsRev (n.natAbs + 1) n.natAbs).reverse).data =
        '-' :: (digitsRev (n.natAbs + 1) n.natAbs).reverse := rfl
    unfold readInt
    rw [hdata]
    simp only [if_true, hnum, hval, Bool.true_and]
    have hne : n.natAbs ≠ 0 := by omega
    simp only [bne_iff_ne, ne_eq, hne, not_false_eq_true, if_true, Option.some.injEq]
    omega
  · rw [if_neg hneg]
    unfold readInt
    simp only []
    rw [hcs]
    simp only [if_neg hc]
    rw [← hcs, hnum, if_pos rfl, hval]
    simp only [Option.some.injEq]
    omega

/-- C1: when client construction and ID generation succeed, `NewService`
issues exactly one registration call, and its descriptor carries the
generated ID, the given name, tags and port, the address `127.0.0.1`, the
check URL `http://127.0.0.1:` followed by the port in decimal and `/health`,
the interval `10s` and the timeout `1s`.  The port in decimal is the text that
reads back as the port: an optional minus sign and a numeral without leading
zeros.  This holds whatever the agent answers and whatever the default mux
holds. -/
theorem newService_registers_once (env : Env) (mux : ServeMux) (serviceName : String)
    (serviceTags : List String) (servicePort : Int) (client : Client) (serviceID : String)
    (hclient : env.newClient = .ok client) (hid : env.generateUUID = .ok serviceID) :
    ∃ port : String, readInt port = some servicePort ∧
      registrations (NewService env mux serviceName serviceTags servicePort).trace =
        [{ ID := serviceID
           Name := serviceName
           Tags := serviceTags
           Address := "127.0.0.1"
           Port := servicePort
           Check := some
             { HTTP := "http://127.0.0.1:" ++ port ++ "/health"
               Interval := "10s"
               Timeout := "1s" } }] := by
  refine ⟨decimal servicePort, readInt_decimal servicePort, ?_⟩
  cases hreg : env.serviceRegister client
      (serviceRegistration serviceID serviceName serviceTags servicePort) with
  | some err =>
    rw [(newService_register_error env mux _ _ _ client serviceID err hclient hid hreg).2.1]
    simp [registrations, serviceRegistration]
  | none =>
    by_cases hdup : ¬ mux.accepts env.conflicts "/health" = true
    · rw [(newService_duplicate env mux _ _ _ client serviceID hclient hid hreg hdup).2]
      simp [registrations, serviceRegistration]
    · rw [(newService_success env mux _ _ _ client serviceID hclient hid hreg
        (not_not.mp hdup)).2.1]
      simp [registrations, serviceRegistration]

/-- C1, at the inputs `orders-svc`, tags `v1` and `prod`, port 8080: the
hypotheses hold, there is a registration call as the theorem describes it, and
the trace evaluates to one registration call with the check URL
`http://127.0.0.1:8080/health`. -/
theorem newService_registers_once_witness :
    (∃ port : String, readInt port = some 8080 ∧
      registrations (NewService (Env.accepting sampleID) [] "orders-svc" ["v1", "prod"]
          8080).trace =
        [{ ID := sampleID
           Name := "orders-svc"
           Tags := ["v1", "prod"]
           Address := "127.0.0.1"
           Port := 8080
           Check := some
             { HTTP := "http://127.0.0.1:" ++ port ++ "/health"
               Interval := "10s"
               Timeout := "1s" } }]) ∧
    registrations (NewService (Env.accepting sampleID) [] "orders-svc" ["v1", "prod"]
        8080).trace =
      [{ ID := sampleID
         Name := "orders-svc"
         Tags := ["v1", "prod"]
         Address := "127.0.0.1"
         Port := 8080
         Check := some
           { HTTP := "http://127.0.0.1:8080/health"
             Interval := "10s"
             Timeout := "1s" } }] :=
  ⟨newService_registers_once (Env.accepting sampleID) [] "orders-svc" ["v1", "prod"] 8080
      { handle := 1 } sampleID rfl rfl, by decide⟩

/-- In a trace made of a first part without start events that holds an
accepted registration, followed by anything, every start event comes after an
accepted registration. -/
theorem start_after_registered (t0 rest : List Event)
    (hno : ∀ x ∈ t0, x.isStart = false) (hreg : registered t0 ≠ [])
    (pre : List Event) (e : Event) (post : List Event)
    (hsplit : t0 ++ rest = pre ++ e :: post) (he : e.isStart = true) :
    registered pre ≠ [] := by
  rcases List.append_eq_append_iff.mp hsplit with ⟨a, ha, _⟩ | ⟨c, hc, hc2⟩
  · intro hnil
    apply hreg
    have : registered (t0 ++ a) = [] := ha ▸ hnil
    simp only [registered, List.filterMap_append, List.append_eq_nil] at this
    exact this.1
  · cases c with
    | nil =>
      simp only [List.append_nil] at hc
      exact hc ▸ hreg
    | cons x xs =>
      simp only [List.cons_append, List.cons.injEq] at hc2
      have hmem : e ∈ t0 := by
        rw [hc, hc2.1]
        simp
      rw [hno e hmem] at he
      cases he

/-- In a trace without start events nothing comes after anything. -/
theorem no_start_of_filter_nil (t pre : List Event) (e : Event) (post : List Event)
    (hnil : t.filter Event.isStart = []) (hsplit : t = pre ++ e :: post)
    (he : e.isStart = true) : False := by
  have hmem : e ∈ t.filter Event.isStart := by
    rw [List.mem_filter, hsplit]
    exact ⟨by simp, he⟩
  rw [hnil] at hmem
  cases hmem

/-- In every execution of `NewService`, each start event (handler installed,
listener started, shutdown task started) comes after a registration call that
the agent accepted. -/
theorem newService_start_after_registered (env : Env) (mux : ServeMux) (name : String)
    (tags : List String) (port : Int) (pre : List Event) (e : Event) (post : List Event)
    (hsplit : (NewService env mux name tags port).trace = pre ++ e :: post)
    (he : e.isStart = true) : registered pre ≠ [] := by
  cases hc : env.newClient with
  | error err =>
    exact (no_start_of_filter_nil _ pre e post
      (by rw [(newService_client_error env mux name tags port err hc).2]; rfl) hsplit he).elim
  | ok c =>
    cases hid : env.generateUUID with
    | error err =>
      exact (no_start_of_filter_nil _ pre e post
        (by rw [(newService_uuid_error env mux name tags port c err hc hid).2]; rfl)
        hsplit he).elim
    | ok id =>
      cases hreg : env.serviceRegister c (serviceRegistration id name tags port) with
      | some err =>
        exact (no_start_of_filter_nil _ pre e post
          (by rw [(newService_register_error env mux name tags port c id err hc hid hreg).2.1]; rfl)
          hsplit he).elim
      | none =>
        by_cases hdup : ¬ mux.accepts env.conflicts "/health" = true
        · exact (no_start_of_filter_nil _ pre e post
            (by rw [(newService_duplicate env mux name tags port c id hc hid hreg hdup).2]; rfl)
            hsplit he).elim
        · rw [(newService_success env mux name tags port c id hc hid hreg (not_not.mp hdup)).2.1] at hsplit
          exact start_after_registered
            [.newClient, .generateUUID,
              .serviceRegister c (serviceRegistration id name tags port) none,
              .println "Service registered successfully."]
            [.handleFunc "/health", .goListenAndServe (":" ++ decimal port),
              .goHandleDeregistrationOnExit { client := c, ID := id }]
            (by
              intro x hx
              simp only [List.mem_cons, List.mem_singleton, List.not_mem_nil, or_false] at hx
              rcases hx with h | h | h | h <;> rw [h] <;> rfl)
            (by simp [registered]) pre e post hsplit he

/-- C2 as stated fails: in a second call of `NewService`, on the default mux
the first call left (it holds `/health`), the registration call succeeds and
yet `NewService` installs no handler, starts no listener and no shutdown
task, and does not return: `http.HandleFunc` panics. -/
theorem newService_start_order_counterexample :
    registered (NewService (Env.accepting otherID) muxAfterFirstCall "orders-svc"
        ["v1", "prod"] 8081).trace =
      [serviceRegistration otherID "orders-svc" ["v1", "prod"] 8081] ∧
    (NewService (Env.accepting otherID) muxAfterFirstCall "orders-svc"
        ["v1", "prod"] 8081).trace.filter Event.isStart = [] ∧
    (NewService (Env.accepting otherID) muxAfterFirstCall "orders-svc"
        ["v1", "prod"] 8081).outcome = .panicked := by
  decide

/-- C2, amended: in every execution of `NewService` the handler, the listener
and the shutdown task are started only after a registration call that
succeeded.  If the registration call fails, `NewService` returns an error and
a nil service, starts none of the three and leaves the mux as it was.  If it
succeeds and `http.HandleFunc` accepts `/health` on the default mux (no
registered pattern is the same or conflicts with it), the effects occur in the
order registration call, handler, listener start, shutdown-task start. -/
theorem newService_start_order (env : Env) (mux : ServeMux) (name : String)
    (tags : List String) (port : Int) :
    (∀ pre e post, (NewService env mux name tags port).trace = pre ++ e :: post →
        e.isStart = true → registered pre ≠ []) ∧
    (∀ c id err, env.newClient = .ok c → env.generateUUID = .ok id →
        env.serviceRegister c (serviceRegistration id name tags port) = some err →
        (NewService env mux name tags port).outcome =
            .returned none (some (Errorf "failed to register service" err)) ∧
          (NewService env mux name tags port).trace.filter Event.isStart = [] ∧
          (NewService env mux name tags port).mux = mux) ∧
    (∀ c id, env.newClient = .ok c → env.generateUUID = .ok id →
        env.serviceRegister c (serviceRegistration id name tags port) = none →
        mux.accepts env.conflicts "/health" = true →
        (NewService env mux name tags port).trace =
          [.newClient, .generateUUID,
            .serviceRegister c (serviceRegistration id name tags port) none,
            .println "Service registered successfully.",
            .handleFunc "/health",
            .goListenAndServe (":" ++ decimal port),
            .goHandleDeregistrationOnExit { client := c, ID := id }]) := by
  refine ⟨?_, ?_, ?_⟩
  · intro pre e post hsplit he
    exact newService_start_after_registered env mux name tags port pre e post hsplit he
  · intro c id err hc hid hreg
    have h := newService_register_error env mux name tags port c id err hc hid hreg
    refine ⟨h.1, ?_, h.2.2⟩
    rw [h.2.1]
    rfl
  · intro c id hc hid hreg hfree
    exact (newService_success env mux name tags port c id hc hid hreg hfree).2.1

/-- C2, amended, at the inputs `orders-svc`, port 8080, on an empty mux: the
trace of the successful call. -/
theorem newService_start_order_witness :
    (NewService (Env.accepting sampleID) [] "orders-svc" ["v1", "prod"] 8080).trace =
      [.newClient, .generateUUID,
        .serviceRegister { handle := 1 }
          (serviceRegistration sampleID "orders-svc" ["v1", "prod"] 8080) none,
        .println "Service registered successfully.",
        .handleFunc "/health",
        .goListenAndServe ":8080",
        .goHandleDeregistrationOnExit { client := { handle := 1 }, ID := sampleID }] :=
  (newService_start_order (Env.accepting sampleID) [] "orders-svc" ["v1", "prod"] 8080).2.2
    { handle := 1 } sampleID rfl rfl rfl (by decide)

/-- C3 as stated fails: in a second call of `NewService`, on the default mux
the first call left (it holds `/health`), all three steps succeed and the
result is not a service with a nil error: the call panics in
`http.HandleFunc`. -/
theorem newService_errors_counterexample :
    (Env.accepting otherID).newClient = .ok { handle := 1 } ∧
    (Env.accepting otherID).generateUUID = .ok otherID ∧
    (Env.accepting otherID).serviceRegister { handle := 1 }
      (serviceRegistration otherID "orders-svc" ["v1", "prod"] 8081) = none ∧
    (NewService (Env.accepting otherID) muxAfterFirstCall "orders-svc"
        ["v1", "prod"] 8081).outcome = .panicked ∧
    ∀ s, (NewService (Env.accepting otherID) muxAfterFirstCall "orders-svc"
        ["v1", "prod"] 8081).outcome ≠ .returned (some s) none := by
  refine ⟨rfl, rfl, rfl, by decide, ?_⟩
  intro s h
  have hp : (NewService (Env.accepting otherID) muxAfterFirstCall "orders-svc"
      ["v1", "prod"] 8081).outcome = .panicked := by decide
  rw [hp] at h
  cases h

/-- C3, amended: `NewService` returns an error exactly when one of its three
steps fails, and the error names the first failing step and wraps its cause.
A client-construction failure gives `failed to create Consul client` with no
ID generated and no registry call; otherwise an ID-generation failure gives
`failed to generate service ID` with no registry call; otherwise a failed
registration call gives `failed to register service`.  With every error the
returned service is nil.  When the three steps succeed and `http.HandleFunc`
accepts `/health` on the default mux (no registered pattern is the same or
conflicts with it), the result is a service and a nil error. -/
theorem newService_errors (env : Env) (mux : ServeMux) (name : String)
    (tags : List String) (port : Int) :
    (NewService env mux name tags port).outcome.returnsError = stepFails env name tags port ∧
    (∀ s err, (NewService env mux name tags port).outcome = .returned s (some err) →
        s = none ∧ ∃ cause, err.Unwrap = some cause) ∧
    (∀ err, env.newClient = .error err →
        (NewService env mux name tags port).outcome =
            .returned none (some (.wrapped ("failed to create Consul client: " ++ err.Error) err)) ∧
          (NewService env mux name tags port).trace = [.newClient]) ∧
    (∀ c err, env.newClient = .ok c → env.generateUUID = .error err →
        (NewService env mux name tags port).outcome =
            .returned none (some (.wrapped ("failed to generate service ID: " ++ err.Error) err)) ∧
          (NewService env mux name tags port).trace = [.newClient, .generateUUID]) ∧
    (∀ c id err, env.newClient = .ok c → env.generateUUID = .ok id →
        env.serviceRegister c (serviceRegistration id name tags port) = some err →
        (NewService env mux name tags port).outcome =
          .returned none (some (.wrapped ("failed to register service: " ++ err.Error) err))) ∧
    (∀ c id, env.newClient = .ok c → env.generateUUID = .ok id →
        env.serviceRegister c (serviceRegistration id name tags port) = none →
        mux.accepts env.conflicts "/health" = true →
        (NewService env mux name tags port).outcome =
          .returned (some { client := c, ID := id }) none) := by
  have key : (NewService env mux name tags port).outcome.returnsError =
        stepFails env name tags port ∧
      ∀ s err, (NewService env mux name tags port).outcome = .returned s (some err) →
        s = none ∧ ∃ cause, err.Unwrap = some cause := by
    cases hc : env.newClient with
    | error e =>
      rw [(newService_client_error env mux name tags port e hc).1]
      refine ⟨by simp [stepFails, hc, Outcome.returnsError], ?_⟩
      intro s err hout
      cases hout
      exact ⟨rfl, e, rfl⟩
    | ok c =>
      cases hid : env.generateUUID with
      | error e =>
        rw [(newService_uuid_error env mux name tags port c e hc hid).1]
        refine ⟨by simp [stepFails, hc, hid, Outcome.returnsError], ?_⟩
        intro s err hout
        cases hout
        exact ⟨rfl, e, rfl⟩
      | ok id =>
        cases hreg : env.serviceRegister c (serviceRegistration id name tags port) with
        | some e =>
          rw [(newService_register_error env mux name tags port c id e hc hid hreg).1]
          refine ⟨by simp [stepFails, hc, hid, hreg, Outcome.returnsError], ?_⟩
          intro s err hout
          cases hout
          exact ⟨rfl, e, rfl⟩
        | none =>
          by_cases hdup : ¬ mux.accepts env.conflicts "/health" = true
          · rw [(newService_duplicate env mux name tags port c id hc hid hreg hdup).1]
            refine ⟨by simp [stepFails, hc, hid, hreg, Outcome.returnsError], ?_⟩
            intro s err hout
            cases hout
          · rw [(newService_success env mux name tags port c id hc hid hreg (not_not.mp hdup)).1]
            refine ⟨by simp [stepFails, hc, hid, hreg, Outcome.returnsError], ?_⟩
            intro s err hout
            cases hout
  refine ⟨key.1, key.2, ?_, ?_, ?_, ?_⟩
  · intro e hc
    exact newService_client_error env mux name tags port e hc
  · intro c e hc hid
    exact newService_uuid_error env mux name tags port c e hc hid
  · intro c id e hc hid hreg
    exact (newService_register_error env mux name tags port c id e hc hid hreg).1
  · intro c id hc hid hreg hfree
    exact (newService_success env mux name tags port c id hc hid hreg hfree).1

/-- C3, amended, at concrete inputs: an agent that refuses the call gives the
registration error, wrapping the refusal; with every step succeeding on an
empty mux the result is the service and a nil error. -/
theorem newService_errors_witness :
    (NewService (Env.refusing sampleID) [] "orders-svc" ["v1", "prod"] 8080).outcome =
      .returned none (some (.wrapped "failed to register service: connection refused"
        (.base "connection refused"))) ∧
    (NewService (Env.accepting sampleID) [] "orders-svc" ["v1", "prod"] 8080).outcome =
      .returned (some { client := { handle := 1 }, ID := sampleID }) none :=
  ⟨(newService_errors (Env.refusing sampleID) [] "orders-svc" ["v1", "prod"] 8080).2.2.2.2.1
      { handle := 1 } sampleID (.base "connection refused") rfl rfl rfl,
    (newService_errors (Env.accepting sampleID) [] "orders-svc" ["v1", "prod"] 8080).2.2.2.2.2
      { handle := 1 } sampleID rfl rfl rfl (by decide)⟩

/-- When `NewService` returns a service, its three steps succeeded, the mux
accepted `/health`, and the service holds the client and the generated ID. -/
theorem newService_returned_service (env : Env) (mux : ServeMux) (name : String)
    (tags : List String) (port : Int) (s : Service) (err : Option GoError)
    (hout : (NewService env mux name tags port).outcome = .returned (some s) err) :
    ∃ c id, env.newClient = .ok c ∧ env.generateUUID = .ok id ∧
      env.serviceRegister c (serviceRegistration id name tags port) = none ∧
      mux.accepts env.conflicts "/health" = true ∧ s = { client := c, ID := id } ∧
      err = none := by
  cases hc : env.newClient with
  | error e =>
    rw [(newService_client_error env mux name tags port e hc).1] at hout
    cases hout
  | ok c =>
    cases hid : env.generateUUID with
    | error e =>
      rw [(newService_uuid_error env mux name tags port c e hc hid).1] at hout
      cases hout
    | ok id =>
      cases hreg : env.serviceRegister c (serviceRegistration id name tags port) with
      | some e =>
        rw [(newService_register_error env mux name tags port c id e hc hid hreg).1] at hout
        cases hout
      | none =>
        by_cases hdup : ¬ mux.accepts env.conflicts "/health" = true
        · rw [(newService_duplicate env mux name tags port c id hc hid hreg hdup).1] at hout
          cases hout
        · rw [(newService_success env mux name tags port c id hc hid hreg (not_not.mp hdup)).1] at hout
          cases hout
          exact ⟨c, id, rfl, rfl, hreg, not_not.mp hdup, rfl, rfl⟩

/-! ## The health endpoint -/

/-- C5: for every request, `healthCheckHandler` writes the status 200 and
the body `OK` and nothing else; the response does not depend on the request,
so two requests get the same response. -/
theorem healthCheckHandler_fixed_response :
    (∀ r : Request, healthCheckHandler ResponseWriter.fresh r =
        { wroteHeader := true, status := 200, body := "OK" }) ∧
    (∀ (w : ResponseWriter) (r1 r2 : Request),
        healthCheckHandler w r1 = healthCheckHandler w r2) := by
  refine ⟨?_, ?_⟩
  · intro r
    rfl
  · intro w r1 r2
    rfl

/-- A path that splits into one segment holds no slash: it is that segment. -/
theorem splitSlash_singleton (l seg : List Char) (h : splitSlash l = [seg]) : l = seg := by
  induction l generalizing seg with
  | nil =>
    simp only [splitSlash, List.cons.injEq, and_true] at h
    exact h
  | cons c cs ih =>
    cases hcs : splitSlash cs with
    | nil =>
      cases cs with
      | nil => simp [splitSlash] at hcs
      | cons d ds =>
        simp only [splitSlash] at hcs
        split at hcs
        · cases hcs
        · split at hcs <;> cases hcs
    | cons s0 rest =>
      simp only [splitSlash, hcs] at h
      by_cases hc : c = '/'
      · rw [if_pos hc] at h
        cases h
      · rw [if_neg hc] at h
        simp only [List.cons.injEq] at h
        obtain ⟨hseg, hrest⟩ := h
        subst hrest
        rw [ih s0 hcs, ← hseg]

/-- Decoding leaves a character other than the percent sign as it is. -/
theorem unescape_cons (c : Char) (rest : List Char) (h : c ≠ '%') :
    unescape (c :: rest) = (unescape rest).map (c :: ·) := by
  conv_lhs => unfold unescape
  simp only [if_neg h]

/-- The pattern `/health` as the mux reads it: one segment, no trailing
slash. -/
theorem patternSegments_health :
    patternSegments "/health" = some ([['h', 'e', 'a', 'l', 't', 'h']], false) := by
  decide

/-- A path that the pattern `/health` matches decodes to `/health`. -/
theorem exactMatch_health_path (r : Request)
    (h : exactMatch "/health" r.escapedPath.data = true) : r.path = "/health" := by
  unfold exactMatch at h
  rw [patternSegments_health] at h
  cases hp : r.escapedPath.data with
  | nil => simp [hp, pathSegments] at h
  | cons c rest =>
    rw [hp] at h
    by_cases hc : c = '/'
    · subst hc
      simp only [pathSegments, if_true, beq_iff_eq] at h
      cases hs : splitSlash rest with
      | nil => simp [hs] at h
      | cons seg more =>
        rw [hs] at h
        cases more with
        | cons x xs => simp at h
        | nil =>
          simp only [List.map_cons, List.map_nil, List.cons.injEq, and_true] at h
          have hrest : rest = seg := splitSlash_singleton rest seg hs
          subst hrest
          have hdec : unescape ['h', 'e', 'a', 'l', 't', 'h'] =
              some ['h', 'e', 'a', 'l', 't', 'h'] := by decide
          have hwhole : pathUnescape ('/' :: rest) = ['/', 'h', 'e', 'a', 'l', 't', 'h'] := by
            unfold pathUnescape at h ⊢
            rw [unescape_cons '/' rest (by decide)]
            cases hu : unescape rest with
            | some u =>
              rw [hu] at h
              simp only [Option.getD_some] at h
              simp [h]
            | none =>
              rw [hu] at h
              simp only [Option.getD_none] at h
              rw [h, hdec] at hu
              cases hu
          unfold Request.path
          rw [hp, hwhole]
    · simp [pathSegments, hc] at h

/-- On a mux that holds only `/health`, a request that is handed to a handler
has the path `/health`. -/
theorem handler_only_health (h : Handler) (r : Request) (pattern : String) (h1 : Handler)
    (hd : ServeMux.Handler [("/health", h)] r = .handler pattern h1) :
    r.path = "/health" := by
  unfold ServeMux.Handler at hd
  simp only [] at hd
  generalize (if r.method = "CONNECT" then r.escapedPath else cleanPath r.escapedPath) = path
    at hd
  by_cases hslash : ServeMux.redirectToPathSlash [("/health", h)] path.data = true
  · rw [if_pos hslash] at hd
    cases hd
  · rw [if_neg hslash] at hd
    by_cases hcanon : path ≠ r.escapedPath
    · rw [if_pos hcanon] at hd
      cases hd
    · rw [if_neg hcanon] at hd
      by_cases hex : exactMatch "/health" r.escapedPath.data = true
      · exact exactMatch_health_path r hex
      · have hsub : subtreeMatch "/health" r.escapedPath.data = false := by
          unfold subtreeMatch
          rw [patternSegments_health]
        simp [ServeMux.lookup, List.find?, hex, hsub] at hd

/-- C6 as stated fails, for the method and for the path.  On the mux a
successful `NewService` leaves, a POST request for `/health` (method not GET)
is answered by `healthCheckHandler` with the status 200.  The request
`OPTIONS *` (path not `/health`) is answered with the status 200 by the server
itself.  And when the program has a handler of its own on the default mux, a
request for `/healthz` is answered with the status 200 by that handler. -/
theorem health_endpoint_counterexample :
    (postHealth.method ≠ "GET" ∧
      (serverHandler 1 muxAfterFirstCall postHealth).status = 200) ∧
    (optionsAsterisk.path ≠ "/health" ∧
      (serverHandler 1 muxAfterFirstCall optionsAsterisk).status = 200) ∧
    (getHealthz.path ≠ "/health" ∧
      (serverHandler 1 muxWithHome getHealthz).status = 200) := by
  decide

/-- C6, amended: on a default mux that holds no handler besides the one
`NewService` installed, for every request whose path is not `/health`, other
than the request `OPTIONS *`, the health endpoint never returns the status
200, whatever the method and whatever status `net/http` uses for its
redirects; and a request for `/health` is answered with the status 200
whatever its method. -/
theorem health_endpoint_status (env : Env) (name : String) (tags : List String) (port : Int)
    (s : Service)
    (hout : (NewService env [] name tags port).outcome = .returned (some s) none)
    (k : Fin 100) (r : Request) :
    (r.path ≠ "/health" → ¬ (r.method = "OPTIONS" ∧ r.escapedPath = "*") →
      (serverHandler k (NewService env [] name tags port).mux r).status ≠ 200) ∧
    (r.escapedPath = "/health" →
      (serverHandler k (NewService env [] name tags port).mux r).status = 200) := by
  obtain ⟨c, id, hc, hid, hreg, hfree, _, _⟩ :=
    newService_returned_service env [] name tags port s none hout
  have hmux : (NewService env [] name tags port).mux = [("/health", healthCheckHandler)] :=
    (newService_success env [] name tags port c id hc hid hreg hfree).2.2
  rw [hmux]
  refine ⟨?_, ?_⟩
  · intro hpath hopt
    unfold serverHandler
    rw [if_neg hopt]
    unfold ServeMux.ServeHTTP
    by_cases hstar : r.escapedPath = "*"
    · rw [if_pos hstar]
      decide
    · rw [if_neg hstar]
      cases hd : ServeMux.Handler [("/health", healthCheckHandler)] r with
      | handler pattern h1 =>
        exact absurd (handler_only_health healthCheckHandler r pattern h1 hd) hpath
      | redirect loc =>
        simp only [ResponseWriter.finish, ResponseWriter.WriteHeader, ResponseWriter.fresh]
        simp
        omega
      | notFound =>
        simp [ResponseWriter.finish, ResponseWriter.WriteHeader, ResponseWriter.Write,
          ResponseWriter.fresh]
  · intro hesc
    have hclean : cleanPath "/health" = "/health" := by decide
    have hnot : ¬ (r.method = "OPTIONS" ∧ r.escapedPath = "*") := by
      rw [hesc]
      intro h
      exact absurd h.2 (by decide)
    have hstar : ¬ r.escapedPath = "*" := by
      rw [hesc]
      decide
    unfold serverHandler
    rw [if_neg hnot]
    unfold ServeMux.ServeHTTP
    rw [if_neg hstar]
    have hd : ServeMux.Handler [("/health", healthCheckHandler)] r =
        .handler "/health" healthCheckHandler := by
      unfold ServeMux.Handler
      simp only [hesc, hclean, ite_self]
      have h1 : ServeMux.redirectToPathSlash [("/health", healthCheckHandler)]
          ("/health" : String).data = false := by decide
      have h2 : ServeMux.lookup [("/health", healthCheckHandler)] ("/health" : String).data =
          some ("/health", healthCheckHandler) := by
        simp only [ServeMux.lookup, List.find?]
        have h3 : exactMatch "/health" ("/health" : String).data = true := by decide
        simp [h3]
      simp [h1, h2]
    simp only [hd]
    rfl

/-- C6, amended, at concrete inputs: a GET request for `/healthz` on the
endpoint of a successful `NewService`, with redirects answered 307, does not
get the status 200. -/
theorem health_endpoint_status_witness :
    (serverHandler 7
      (NewService (Env.accepting sampleID) [] "orders-svc" ["v1", "prod"] 8080).mux
      getHealthz).status ≠ 200 :=
  (health_endpoint_status (Env.accepting sampleID) "orders-svc" ["v1", "prod"] 8080
    { client := { handle := 1 }, ID := sampleID } (by decide) 7 getHealthz).1
    (by decide) (by decide)

/-! ## The shutdown task -/

/-- Once the process has ended no action changes it. -/
theorem step_terminated (dereg : Client → String → Option GoError) (p : Process) (a : Action)
    (t : Termination) (h : p.terminated = some t) : step dereg p a = p := by
  simp [step, h]

/-- Once the process has ended no schedule changes it. -/
theorem run_terminated (dereg : Client → String → Option GoError) (sched : List Action)
    (p : Process) (t : Termination) (h : p.terminated = some t) : run dereg p sched = p := by
  induction sched with
  | nil => rfl
  | cons a rest ih =>
    show run dereg (step dereg p a) rest = p
    rw [step_terminated dereg p a t h]
    exact ih

/-- A schedule in two parts runs as the first part, then the second. -/
theorem run_append (dereg : Client → String → Option GoError) (p : Process)
    (s1 s2 : List Action) : run dereg p (s1 ++ s2) = run dereg (run dereg p s1) s2 := by
  simp [run, List.foldl_append]

/-- C8: when the shutdown task has its signal and issues the deregistration
call, a failing call ends the process with the status 1 after the diagnostic
`Failed to deregister service: <error>`, and the success line is not printed,
neither then nor later; a successful call is followed by the success line,
the task ends, the process keeps running and the listener is left as it
was. -/
theorem shutdown_after_signal (dereg : Client → String → Option GoError) (p : Process)
    (sig : Signal) (halive : p.terminated = none) (hpc : p.shutdown = .awaiting)
    (hchan : p.signalChan = [sig]) :
    (∀ err, dereg p.svc.client p.svc.ID = some err →
      (run dereg p [.shutdownStep, .shutdownStep, .shutdownStep]).terminated = some (.exit 1) ∧
      (run dereg p [.shutdownStep, .shutdownStep, .shutdownStep]).trace =
        p.trace ++ [.println "Received termination signal, deregistering service...",
          .serviceDeregister p.svc.client p.svc.ID (some err),
          .logFatal ("Failed to deregister service: " ++ err.Error)] ∧
      ∀ sched,
        (run dereg p ([.shutdownStep, .shutdownStep, .shutdownStep] ++ sched)).trace =
          (run dereg p [.shutdownStep, .shutdownStep, .shutdownStep]).trace) ∧
    (dereg p.svc.client p.svc.ID = none →
      (run dereg p [.shutdownStep, .shutdownStep, .shutdownStep]).terminated = none ∧
      (run dereg p [.shutdownStep, .shutdownStep, .shutdownStep]).trace =
        p.trace ++ [.println "Received termination signal, deregistering service...",
          .serviceDeregister p.svc.client p.svc.ID none,
          .println "Service deregistered successfully."] ∧
      (run dereg p [.shutdownStep, .shutdownStep, .shutdownStep]).shutdown = .finished ∧
      (run dereg p [.shutdownStep, .shutdownStep, .shutdownStep]).listener = p.listener) := by
  obtain ⟨svc, listener, shutdown, chan, trace, term⟩ := p
  simp only at halive hpc hchan
  subst halive hpc hchan
  refine ⟨?_, ?_⟩
  · intro err herr
    have hterm : (run dereg ⟨svc, listener, .awaiting, [sig], trace, none⟩
        [.shutdownStep, .shutdownStep, .shutdownStep]).terminated = some (.exit 1) := by
      simp [run, step, handleDeregistrationOnExit, herr]
    refine ⟨hterm, ?_, ?_⟩
    · simp [run, step, handleDeregistrationOnExit, herr]
    · intro sched
      rw [run_append, run_terminated dereg sched _ _ hterm]
  · intro hok
    simp [run, step, handleDeregistrationOnExit, hok]

/-- C8 at a concrete process: with an agent that fails the process ends with
the status 1; with an agent that answers the process keeps running. -/
theorem shutdown_after_signal_witness :
    (run (fun _ _ => some (.base "agent down")) signalledProcess
      [.shutdownStep, .shutdownStep, .shutdownStep]).terminated = some (.exit 1) ∧
    (run (fun _ _ => none) signalledProcess
      [.shutdownStep, .shutdownStep, .shutdownStep]).terminated = none :=
  ⟨((shutdown_after_signal (fun _ _ => some (.base "agent down")) signalledProcess .SIGTERM
      rfl rfl rfl).1 (.base "agent down") rfl).1,
    ((shutdown_after_signal (fun _ _ => none) signalledProcess .SIGTERM
      rfl rfl rfl).2 rfl).1⟩

/-- No step of the process issues a registration call. -/
theorem step_registered (dereg : Client → String → Option GoError) (p : Process) (a : Action) :
    registered (step dereg p a).trace = registered p.trace := by
  obtain ⟨svc, listener, shutdown, chan, trace, term⟩ := p
  cases term with
  | some t => rfl
  | none =>
    cases a with
    | deliver sig =>
      simp only [step, deliver]
      split
      · split
        · rfl
        · split <;> rfl
      · split <;> rfl
    | shutdownStep =>
      cases shutdown with
      | spawned => simp [step, handleDeregistrationOnExit, registered]
      | awaiting => cases chan <;> simp [step, handleDeregistrationOnExit]
      | signalled => simp [step, handleDeregistrationOnExit, registered]
      | deregReturned e => cases e <;> simp [step, handleDeregistrationOnExit, registered]
      | finished => simp [step, handleDeregistrationOnExit]
    | listenerBound => cases listener <;> simp [step]
    | listenReturns e => cases listener <;> simp [step]
    | listenerStep => cases listener <;> simp [step, registered]

/-- No schedule issues a registration call. -/
theorem run_registered (dereg : Client → String → Option GoError) (sched : List Action)
    (p : Process) : registered (run dereg p sched).trace = registered p.trace := by
  induction sched generalizing p with
  | nil => rfl
  | cons a rest ih =>
    show registered (run dereg (step dereg p a) rest).trace = registered p.trace
    rw [ih, step_registered]

/-- While no SIGINT or SIGTERM is delivered the task stays quiet and no
deregistration call is issued. -/
theorem step_quiet (dereg : Client → String → Option GoError) (p : Process) (a : Action)
    (hq : p.Quiet) (ha : a.isTermination = false) :
    (step dereg p a).Quiet ∧
      deregistrations (step dereg p a).trace = deregistrations p.trace := by
  obtain ⟨svc, listener, shutdown, chan, trace, term⟩ := p
  obtain ⟨hchan, hpc⟩ := hq
  simp only at hchan hpc
  subst hchan
  cases term with
  | some t => exact ⟨⟨rfl, hpc⟩, rfl⟩
  | none =>
    cases a with
    | deliver sig =>
      cases sig with
      | SIGINT => cases ha
      | SIGTERM => cases ha
      | other n e =>
        cases e <;> simp [step, deliver, notifySet, Signal.ends, Process.Quiet, hpc]
    | shutdownStep =>
      rcases hpc with h | h <;> subst h <;>
        simp [step, handleDeregistrationOnExit, Process.Quiet, deregistrations]
    | listenerBound => cases listener <;> simp [step, Process.Quiet, hpc]
    | listenReturns e => cases listener <;> simp [step, Process.Quiet, hpc]
    | listenerStep => cases listener <;> simp [step, Process.Quiet, hpc, deregistrations]

/-- A schedule that delivers no SIGINT and no SIGTERM issues no deregistration
call. -/
theorem run_quiet (dereg : Client → String → Option GoError) (sched : List Action)
    (p : Process) (hq : p.Quiet) (ha : ∀ a ∈ sched, a.isTermination = false) :
    (run dereg p sched).Quiet ∧
      deregistrations (run dereg p sched).trace = deregistrations p.trace := by
  induction sched generalizing p with
  | nil => exact ⟨hq, rfl⟩
  | cons a rest ih =>
    have hstep := step_quiet dereg p a hq (ha a (by simp))
    have hrest := ih (step dereg p a) hstep.1 (fun b hb => ha b (List.mem_cons_of_mem _ hb))
    exact ⟨hrest.1, hrest.2.trans hstep.2⟩

/-- A schedule without signal deliveries delivers no SIGINT and no SIGTERM. -/
theorem no_delivery_no_termination (sched : List Action)
    (h : ∀ sig, Action.deliver sig ∉ sched) : ∀ a ∈ sched, a.isTermination = false := by
  intro a ha
  cases a with
  | deliver sig => exact absurd ha (h sig)
  | shutdownStep => rfl
  | listenerBound => rfl
  | listenReturns e => rfl
  | listenerStep => rfl

/-- The trace of `NewService` holds no deregistration call. -/
theorem newService_no_deregistration (env : Env) (mux : ServeMux) (name : String)
    (tags : List String) (port : Int) :
    deregistrations (NewService env mux name tags port).trace = [] := by
  cases hc : env.newClient with
  | error e => rw [(newService_client_error env mux name tags port e hc).2]; rfl
  | ok c =>
    cases hid : env.generateUUID with
    | error e => rw [(newService_uuid_error env mux name tags port c e hc hid).2]; rfl
    | ok id =>
      cases hreg : env.serviceRegister c (serviceRegistration id name tags port) with
      | some e =>
        rw [(newService_register_error env mux name tags port c id e hc hid hreg).2.1]; rfl
      | none =>
        by_cases hdup : ¬ mux.accepts env.conflicts "/health" = true
        · rw [(newService_duplicate env mux name tags port c id hc hid hreg hdup).2]; rfl
        · rw [(newService_success env mux name tags port c id hc hid hreg (not_not.mp hdup)).2.1]; rfl

/-- The failure of the listener in a running process: the process ends with the
status 1 after one `log.Fatal` line, and the shutdown task is not touched. -/
theorem listener_failure_step (dereg : Client → String → Option GoError) (p : Process)
    (err : GoError) (halive : p.terminated = none) :
    (run dereg p [.listenReturns err, .listenerStep]).terminated = some (.exit 1) ∧
    (∃ e0 : GoError, (run dereg p [.listenReturns err, .listenerStep]).trace =
      p.trace ++ [.logFatal e0.Error]) ∧
    (run dereg p [.listenReturns err, .listenerStep]).shutdown = p.shutdown ∧
    (run dereg p [.listenReturns err, .listenerStep]).signalChan = p.signalChan := by
  obtain ⟨svc, listener, shutdown, chan, trace, term⟩ := p
  simp only at halive
  subst halive
  cases listener with
  | spawned => exact ⟨rfl, ⟨err, rfl⟩, rfl, rfl⟩
  | serving => exact ⟨rfl, ⟨err, rfl⟩, rfl, rfl⟩
  | returned e0 => exact ⟨rfl, ⟨e0, rfl⟩, rfl, rfl⟩

/-- C10: after a successful `NewService`, in whatever state the running
process is, the failure of the listener (`ListenAndServe` returns, `log.Fatal`
runs) ends the process with the status 1 and issues no deregistration call:
the trace gains one `log.Fatal` line only, the shutdown task is left where it
was, and nothing happens afterwards.  When no signal was delivered before the
failure, the whole execution holds no deregistration call at all, while the
registration of the service stands. -/
theorem listener_failure_no_deregistration (env : Env) (mux : ServeMux) (name : String)
    (tags : List String) (port : Int) (s : Service)
    (hout : (NewService env mux name tags port).outcome = .returned (some s) none)
    (pre : List Action) (err : GoError)
    (halive : (run env.serviceDeregister
      (Process.start s (NewService env mux name tags port).trace) pre).terminated = none) :
    (run env.serviceDeregister
      (Process.start s (NewService env mux name tags port).trace)
      (pre ++ [.listenReturns err, .listenerStep])).terminated = some (.exit 1) ∧
    deregistrations (run env.serviceDeregister
      (Process.start s (NewService env mux name tags port).trace)
      (pre ++ [.listenReturns err, .listenerStep])).trace =
      deregistrations (run env.serviceDeregister
        (Process.start s (NewService env mux name tags port).trace) pre).trace ∧
    (run env.serviceDeregister
      (Process.start s (NewService env mux name tags port).trace)
      (pre ++ [.listenReturns err, .listenerStep])).shutdown =
      (run env.serviceDeregister
        (Process.start s (NewService env mux name tags port).trace) pre).shutdown ∧
    (∀ sched, run env.serviceDeregister
      (Process.start s (NewService env mux name tags port).trace)
      (pre ++ [.listenReturns err, .listenerStep] ++ sched) =
      run env.serviceDeregister
        (Process.start s (NewService env mux name tags port).trace)
        (pre ++ [.listenReturns err, .listenerStep])) ∧
    ((∀ sig, Action.deliver sig ∉ pre) →
      deregistrations (run env.serviceDeregister
        (Process.start s (NewService env mux name tags port).trace)
        (pre ++ [.listenReturns err, .listenerStep])).trace = [] ∧
      registered (run env.serviceDeregister
        (Process.start s (NewService env mux name tags port).trace)
        (pre ++ [.listenReturns err, .listenerStep])).trace =
        [serviceRegistration s.ID name tags port]) := by
  obtain ⟨c, id, hc, hid, hreg, hfree, hs, _⟩ :=
    newService_returned_service env mux name tags port s none hout
  have hfail := listener_failure_step env.serviceDeregister _ err halive
  obtain ⟨hterm, ⟨e0, htrace⟩, hpc, _⟩ := hfail
  rw [← run_append] at hterm htrace hpc
  have hdereg : deregistrations (run env.serviceDeregister
      (Process.start s (NewService env mux name tags port).trace)
      (pre ++ [.listenReturns err, .listenerStep])).trace =
      deregistrations (run env.serviceDeregister
        (Process.start s (NewService env mux name tags port).trace) pre).trace := by
    rw [htrace]
    simp [deregistrations]
  refine ⟨hterm, hdereg, hpc, ?_, ?_⟩
  · intro sched
    rw [run_append _ _ (pre ++ _) sched]
    exact run_terminated _ sched _ _ hterm
  · intro hnosig
    have hquiet := run_quiet env.serviceDeregister pre
      (Process.start s (NewService env mux name tags port).trace)
      ⟨rfl, Or.inl rfl⟩ (no_delivery_no_termination pre hnosig)
    refine ⟨?_, ?_⟩
    · rw [hdereg, hquiet.2]
      exact newService_no_deregistration env mux name tags port
    · rw [run_registered]
      show registered (NewService env mux name tags port).trace = _
      rw [(newService_success env mux name tags port c id hc hid hreg hfree).2.1, hs]
      simp [registered]

/-- C10 at concrete inputs: after `NewService` for `orders-svc` on port 8080
the task subscribes, the listener binds, then fails; the process ends with the
status 1, the trace holds no deregistration call, and the registration
stands. -/
theorem listener_failure_no_deregistration_witness :
    (run (Env.accepting sampleID).serviceDeregister
      (Process.start { client := { handle := 1 }, ID := sampleID }
        (NewService (Env.accepting sampleID) [] "orders-svc" ["v1", "prod"] 8080).trace)
      ([.shutdownStep, .listenerBound] ++
        [.listenReturns (.base "accept tcp: use of closed network connection"),
          .listenerStep])).terminated = some (.exit 1) ∧
    deregistrations (run (Env.accepting sampleID).serviceDeregister
      (Process.start { client := { handle := 1 }, ID := sampleID }
        (NewService (Env.accepting sampleID) [] "orders-svc" ["v1", "prod"] 8080).trace)
      ([.shutdownStep, .listenerBound] ++
        [.listenReturns (.base "accept tcp: use of closed network connection"),
          .listenerStep])).trace = [] ∧
    registered (run (Env.accepting sampleID).serviceDeregister
      (Process.start { client := { handle := 1 }, ID := sampleID }
        (NewService (Env.accepting sampleID) [] "orders-svc" ["v1", "prod"] 8080).trace)
      ([.shutdownStep, .listenerBound] ++
        [.listenReturns (.base "accept tcp: use of closed network connection"),
          .listenerStep])).trace =
      [serviceRegistration sampleID "orders-svc" ["v1", "prod"] 8080] :=
  have h := listener_failure_no_deregistration (Env.accepting sampleID) [] "orders-svc"
    ["v1", "prod"] 8080 { client := { handle := 1 }, ID := sampleID } (by decide)
    [.shutdownStep, .listenerBound]
    (.base "accept tcp: use of closed network connection") (by decide)
  ⟨h.1, (h.2.2.2.2 (fun sig hsig => by simp at hsig)).1,
    (h.2.2.2.2 (fun sig hsig => by simp at hsig)).2⟩

/-- Every step keeps the bookkeeping of the shutdown task. -/
theorem step_consistent (dereg : Client → String → Option GoError) (s : Service) (p : Process)
    (a : Action) (h : p.Consistent s) : (step dereg p a).Consistent s := by
  obtain ⟨svc, listener, shutdown, chan, trace, term⟩ := p
  obtain ⟨hsvc, hpc⟩ := h
  simp only at hsvc
  subst hsvc
  cases term with
  | some t => exact ⟨rfl, hpc⟩
  | none =>
    cases a with
    | deliver sig =>
      simp only [step, deliver]
      split
      · cases shutdown with
        | spawned => exact ⟨rfl, hpc⟩
        | awaiting => simp only []; split <;> exact ⟨rfl, hpc⟩
        | signalled => simp only []; split <;> exact ⟨rfl, hpc⟩
        | deregReturned e => simp only []; split <;> exact ⟨rfl, hpc⟩
        | finished => simp only []; split <;> exact ⟨rfl, hpc⟩
      · split <;> exact ⟨rfl, hpc⟩
    | shutdownStep =>
      cases shutdown with
      | spawned =>
        simp only [Process.Consistent] at hpc
        simp [step, handleDeregistrationOnExit, Process.Consistent, deregistrations] at hpc ⊢
        exact hpc
      | awaiting =>
        cases chan with
        | nil => exact ⟨rfl, hpc⟩
        | cons x xs => exact ⟨rfl, hpc⟩
      | signalled =>
        simp only [Process.Consistent] at hpc
        simp [step, handleDeregistrationOnExit, Process.Consistent, deregistrations] at hpc ⊢
        exact hpc
      | deregReturned e =>
        simp only [Process.Consistent] at hpc
        cases e <;>
          simp [step, handleDeregistrationOnExit, Process.Consistent, deregistrations] at hpc ⊢ <;>
          exact hpc
      | finished => exact ⟨rfl, hpc⟩
    | listenerBound => cases listener <;> exact ⟨rfl, hpc⟩
    | listenReturns e => cases listener <;> exact ⟨rfl, hpc⟩
    | listenerStep =>
      cases listener with
      | spawned => exact ⟨rfl, hpc⟩
      | serving => exact ⟨rfl, hpc⟩
      | returned e =>
        refine ⟨rfl, ?_⟩
        cases shutdown <;>
          simp [step, Process.Consistent, deregistrations] at hpc ⊢ <;> exact hpc

/-- Every schedule keeps the bookkeeping of the shutdown task. -/
theorem run_consistent (dereg : Client → String → Option GoError) (s : Service)
    (sched : List Action) (p : Process) (h : p.Consistent s) :
    (run dereg p sched).Consistent s := by
  induction sched generalizing p with
  | nil => exact h
  | cons a rest ih => exact ih (step dereg p a) (step_consistent dereg s p a h)

/-- Under the bookkeeping, the deregistration calls of a trace are at most
one, and each carries the ID of the service. -/
theorem consistent_deregistrations (s : Service) (p : Process) (h : p.Consistent s) :
    p.svc = s ∧ (deregistrations p.trace).length ≤ 1 ∧
      ∀ id ∈ deregistrations p.trace, id = s.ID := by
  obtain ⟨hsvc, hpc⟩ := h
  refine ⟨hsvc, ?_⟩
  cases hshut : p.shutdown <;> rw [hshut] at hpc <;> simp only [] at hpc <;> rw [hpc] <;> simp

/-- The deregistration calls of a trace in two parts. -/
theorem deregistrations_append (a b : List Event) :
    deregistrations (a ++ b) = deregistrations a ++ deregistrations b := by
  simp [deregistrations]

/-- C4: after a successful `NewService`, the ID of the descriptor in the
registration call is the ID of the returned service; in every execution that
follows, the process holds the service unchanged and every deregistration call
carries that same ID; and a SIGINT or SIGTERM delivered to the subscribed task
leads to one deregistration call, carrying that ID. -/
theorem deregistration_uses_registered_id (env : Env) (mux : ServeMux) (name : String)
    (tags : List String) (port : Int) (s : Service)
    (hout : (NewService env mux name tags port).outcome = .returned (some s) none) :
    (registrations (NewService env mux name tags port).trace).map
        AgentServiceRegistration.ID = [s.ID] ∧
    (∀ sched,
      (run env.serviceDeregister
        (Process.start s (NewService env mux name tags port).trace) sched).svc = s ∧
      ∀ id ∈ deregistrations (run env.serviceDeregister
        (Process.start s (NewService env mux name tags port).trace) sched).trace,
        id = s.ID) ∧
    (∀ sig ∈ notifySet,
      deregistrations (run env.serviceDeregister
        (Process.start s (NewService env mux name tags port).trace)
        [.shutdownStep, .deliver sig, .shutdownStep, .shutdownStep]).trace = [s.ID]) := by
  obtain ⟨c, id, hc, hid, hreg, hfree, hs, _⟩ :=
    newService_returned_service env mux name tags port s none hout
  have hno := newService_no_deregistration env mux name tags port
  have hstart : (Process.start s (NewService env mux name tags port).trace).Consistent s :=
    ⟨rfl, hno⟩
  refine ⟨?_, ?_, ?_⟩
  · rw [(newService_success env mux name tags port c id hc hid hreg hfree).2.1, hs]
    simp [registrations, serviceRegistration]
  · intro sched
    have h := consistent_deregistrations s _
      (run_consistent env.serviceDeregister s sched _ hstart)
    exact ⟨h.1, h.2.2⟩
  · intro sig hsig
    have hmem : sig ∈ notifySet := hsig
    simp only [run, List.foldl, step, Process.start, handleDeregistrationOnExit, deliver, hmem,
      if_true, List.length_nil, Nat.lt_one_iff, List.nil_append, deregistrations_append, hno]
    rfl

/-- C4 at the inputs `orders-svc`, port 8080: after a SIGTERM the one
deregistration call carries the generated ID. -/
theorem deregistration_uses_registered_id_witness :
    deregistrations (run (Env.accepting sampleID).serviceDeregister
      (Process.start { client := { handle := 1 }, ID := sampleID }
        (NewService (Env.accepting sampleID) [] "orders-svc" ["v1", "prod"] 8080).trace)
      [.shutdownStep, .deliver .SIGTERM, .shutdownStep, .shutdownStep]).trace = [sampleID] :=
  (deregistration_uses_registered_id (Env.accepting sampleID) [] "orders-svc" ["v1", "prod"]
    8080 { client := { handle := 1 }, ID := sampleID } (by decide)).2.2 .SIGTERM (by decide)

/-- Every step that does not end the process from outside keeps the tracking
of a subscribed task, with the delivery of a SIGINT or SIGTERM recorded. -/
theorem step_tracked (dereg : Client → String → Option GoError) (seen : Bool) (p : Process)
    (a : Action) (h : p.Tracked seen) (ha : a.isFatal = false) :
    (step dereg p a).Tracked (seen || a.isTermination) := by
  obtain ⟨svc, listener, shutdown, chan, trace, term⟩ := p
  obtain ⟨hl, hpc⟩ := h
  simp only at hl
  cases a with
  | listenReturns e => cases ha
  | listenerBound =>
    cases term <;> cases listener <;>
      simp_all [step, Process.Tracked, Action.isTermination]
  | listenerStep =>
    cases term <;> cases listener <;>
      simp_all [step, Process.Tracked, Action.isTermination]
  | shutdownStep =>
    cases term with
    | some t =>
      simp only [step, Action.isTermination, Bool.or_false]
      exact ⟨hl, hpc⟩
    | none =>
      cases shutdown with
      | spawned => exact hpc.elim
      | awaiting =>
        cases chan with
        | nil =>
          simp only [step, handleDeregistrationOnExit, Action.isTermination, Bool.or_false]
          exact ⟨hl, hpc⟩
        | cons x xs =>
          simp only [Process.Tracked] at hpc
          simp [step, handleDeregistrationOnExit, Process.Tracked, Action.isTermination] at hpc ⊢
          exact ⟨hl, hpc.1, hpc.2⟩
      | signalled =>
        simp only [Process.Tracked] at hpc
        simp [step, handleDeregistrationOnExit, Process.Tracked, Action.isTermination,
          deregistrations_append, hpc.2.1, hpc.2.2]
        exact ⟨hl, rfl⟩
      | deregReturned e =>
        simp only [Process.Tracked] at hpc
        cases e <;>
          simp [step, handleDeregistrationOnExit, Process.Tracked, Action.isTermination,
            deregistrations_append, hpc.1, hpc.2] <;>
          exact ⟨hl, rfl⟩
      | finished =>
        simp only [step, handleDeregistrationOnExit, Action.isTermination, Bool.or_false]
        exact ⟨hl, hpc⟩
  | deliver sig =>
    have hends : ∀ n e, sig = .other n e → e = false := by
      intro n e hsig
      rw [hsig] at ha
      exact ha
    cases term with
    | some t =>
      cases shutdown <;> cases sig <;>
        simp_all [step, Process.Tracked, Action.isTermination]
    | none =>
      cases shutdown with
      | spawned => exact hpc.elim
      | awaiting =>
        simp only [Process.Tracked] at hpc
        cases sig <;> cases chan <;>
          simp_all [step, deliver, notifySet, Signal.ends, Process.Tracked,
            Action.isTermination]
      | signalled =>
        simp only [Process.Tracked] at hpc
        cases sig <;> cases chan <;>
          simp_all [step, deliver, notifySet, Signal.ends, Process.Tracked,
            Action.isTermination]
      | deregReturned e =>
        simp only [Process.Tracked] at hpc
        cases sig <;> cases chan <;>
          simp_all [step, deliver, notifySet, Signal.ends, Process.Tracked,
            Action.isTermination]
      | finished =>
        simp only [Process.Tracked] at hpc
        cases sig <;> cases chan <;>
          simp_all [step, deliver, notifySet, Signal.ends, Process.Tracked,
            Action.isTermination]

/-- Every schedule in which nothing ends the process from outside keeps the
tracking of a subscribed task. -/
theorem run_tracked (dereg : Client → String → Option GoError) (sched : List Action)
    (seen : Bool) (p : Process) (h : p.Tracked seen)
    (ha : ∀ a ∈ sched, a.isFatal = false) :
    (run dereg p sched).Tracked (seen || sched.any Action.isTermination) := by
  induction sched generalizing seen p with
  | nil => simpa using h
  | cons a rest ih =>
    have hstep := step_tracked dereg seen p a h (ha a (by simp))
    have hrest := ih (seen || a.isTermination) (step dereg p a) hstep
      (fun b hb => ha b (List.mem_cons_of_mem _ hb))
    simpa [List.any_cons, Bool.or_assoc] using hrest

/-- A tracked task that is left to run until it blocks or ends has issued one
deregistration call when a SIGINT or SIGTERM was delivered, and none
otherwise. -/
theorem tracked_quiesce (dereg : Client → String → Option GoError) (seen : Bool) (p : Process)
    (h : p.Tracked seen) :
    (deregistrations (run dereg p
      [.shutdownStep, .shutdownStep, .shutdownStep]).trace).length =
      if seen = true then 1 else 0 := by
  obtain ⟨svc, listener, shutdown, chan, trace, term⟩ := p
  obtain ⟨hl, hpc⟩ := h
  cases shutdown with
  | spawned => exact hpc.elim
  | awaiting =>
    simp only [Process.Tracked] at hpc
    obtain ⟨hterm, hnone, hseen⟩ := hpc
    replace hterm : term = none := hterm
    replace hnone : deregistrations trace = [] := hnone
    replace hseen : chan ≠ [] ↔ seen = true := hseen
    subst hterm
    cases chan with
    | nil =>
      have hs : seen = false := by
        cases seen
        · rfl
        · exact absurd rfl (hseen.mpr rfl)
      subst hs
      simp [run, step, handleDeregistrationOnExit, hnone]
    | cons x xs =>
      have hs : seen = true := hseen.mp (by simp)
      subst hs
      cases hd : dereg svc.client svc.ID <;>
        simp [run, step, handleDeregistrationOnExit, hd, deregistrations_append, hnone] <;> rfl
  | signalled =>
    simp only [Process.Tracked] at hpc
    obtain ⟨hterm, hnone, hseen⟩ := hpc
    replace hterm : term = none := hterm
    replace hnone : deregistrations trace = [] := hnone
    subst hterm hseen
    cases hd : dereg svc.client svc.ID <;>
      simp [run, step, handleDeregistrationOnExit, hd, deregistrations_append, hnone] <;> rfl
  | deregReturned e =>
    simp only [Process.Tracked] at hpc
    obtain ⟨hone, hseen⟩ := hpc
    replace hone : (deregistrations trace).length = 1 := hone
    subst hseen
    cases term <;> cases e <;>
      simp [run, step, handleDeregistrationOnExit, deregistrations_append, hone] <;> rfl
  | finished =>
    simp only [Process.Tracked] at hpc
    obtain ⟨hone, hseen⟩ := hpc
    replace hone : (deregistrations trace).length = 1 := hone
    subst hseen
    cases term <;> simp [run, step, handleDeregistrationOnExit, hone]

/-- A schedule holds a terminating delivery exactly when it delivers SIGINT or
SIGTERM. -/
theorem any_isTermination (sched : List Action) :
    sched.any Action.isTermination = true ↔
      Action.deliver .SIGINT ∈ sched ∨ Action.deliver .SIGTERM ∈ sched := by
  rw [List.any_eq_true]
  constructor
  · rintro ⟨a, hmem, ha⟩
    cases a with
    | deliver sig =>
      cases sig with
      | SIGINT => exact Or.inl hmem
      | SIGTERM => exact Or.inr hmem
      | other n => cases ha
    | shutdownStep => cases ha
    | listenerBound => cases ha
    | listenReturns e => cases ha
    | listenerStep => cases ha
  · rintro (h | h)
    · exact ⟨_, h, rfl⟩
    · exact ⟨_, h, rfl⟩

/-- The process that a run of `NewService` leaves behind starts from the
returned service and the trace of the call. -/
theorem process_eq_start (r : Run) (p0 : Process) (h : r.process = some p0) :
    ∃ s err, r.outcome = .returned (some s) err ∧ p0 = Process.start s r.trace := by
  unfold Run.process at h
  split at h
  · rename_i s err hout
    cases h
    exact ⟨s, err, hout, rfl⟩
  · cases h

/-- C7 as stated fails: three executions in which a SIGTERM is delivered and
no deregistration call is issued.  In the first the task has subscribed and a
SIGHUP (signal 1, which ends a Go process that has not subscribed to it)
arrives before the SIGTERM.  In the second the SIGTERM arrives before the
task has run `signal.Notify`, and takes its default action.  In the third the
SIGTERM is in the channel when the listener fails and `log.Fatal` ends the
process before the task runs. -/
theorem deregistration_count_counterexample :
    deregistrations (run (Env.accepting sampleID).serviceDeregister startedProcess
      ([.shutdownStep] ++ [.deliver (.other 1 true), .deliver .SIGTERM] ++
        [.shutdownStep, .shutdownStep, .shutdownStep])).trace = [] ∧
    deregistrations (run (Env.accepting sampleID).serviceDeregister startedProcess
      ([.deliver .SIGTERM] ++
        [.shutdownStep, .shutdownStep, .shutdownStep, .shutdownStep])).trace = [] ∧
    deregistrations (run (Env.accepting sampleID).serviceDeregister startedProcess
      ([.shutdownStep] ++
        [.deliver .SIGTERM, .listenReturns (.base "accept tcp: too many open files"),
          .listenerStep] ++
        [.shutdownStep, .shutdownStep, .shutdownStep])).trace = [] := by
  decide

/-- A schedule that delivers neither SIGINT nor SIGTERM holds no terminating
delivery. -/
theorem no_termination_of_not_mem (sched : List Action)
    (hint : Action.deliver .SIGINT ∉ sched) (hterm : Action.deliver .SIGTERM ∉ sched) :
    ∀ a ∈ sched, a.isTermination = false := by
  intro a ha
  cases hb : a.isTermination with
  | false => rfl
  | true =>
    have hany : sched.any Action.isTermination = true := List.any_eq_true.mpr ⟨a, ha, hb⟩
    rcases (any_isTermination sched).mp hany with h | h
    · exact absurd h hint
    · exact absurd h hterm

/-- C7, amended: take the process a successful `NewService` leaves behind and
let the shutdown task subscribe.  For every sequence of signal deliveries,
interleaved in any way with steps of the task, during which nothing else ends
the process (no signal outside the subscription whose action ends the
process, no failure of the listener), once the task is left to run until it
blocks or ends, the number of deregistration calls is one when a SIGINT or
SIGTERM was among the deliveries and zero otherwise.  In every execution
whatsoever the number is at most one, and an execution in which neither
SIGINT nor SIGTERM is delivered holds no deregistration call. -/
theorem deregistration_count (env : Env) (mux : ServeMux) (name : String)
    (tags : List String) (port : Int) (p0 : Process)
    (hproc : (NewService env mux name tags port).process = some p0)
    (sched : List Action) (hlive : ∀ a ∈ sched, a.isFatal = false) :
    (deregistrations (run env.serviceDeregister p0
      ([.shutdownStep] ++ sched ++ [.shutdownStep, .shutdownStep, .shutdownStep])).trace).length =
      (if Action.deliver .SIGINT ∈ sched ∨ Action.deliver .SIGTERM ∈ sched then 1 else 0) ∧
    (∀ anySched,
      (deregistrations (run env.serviceDeregister p0 anySched).trace).length ≤ 1) ∧
    (∀ anySched, Action.deliver .SIGINT ∉ anySched → Action.deliver .SIGTERM ∉ anySched →
      deregistrations (run env.serviceDeregister p0 anySched).trace = []) := by
  obtain ⟨s, err, _, hp0⟩ := process_eq_start _ p0 hproc
  subst hp0
  have hno := newService_no_deregistration env mux name tags port
  refine ⟨?_, ?_, ?_⟩
  · have h0 : (run env.serviceDeregister
        (Process.start s (NewService env mux name tags port).trace)
        [.shutdownStep]).Tracked false := by
      refine ⟨fun e he => (by cases he), ?_⟩
      refine ⟨rfl, ?_, ?_⟩
      · show deregistrations ((NewService env mux name tags port).trace ++ _) = []
        rw [deregistrations_append, hno]
        rfl
      · show ([] : List Signal) ≠ [] ↔ false = true
        simp
    have h1 := run_tracked env.serviceDeregister sched false _ h0 hlive
    have h2 := tracked_quiesce env.serviceDeregister _ _ h1
    rw [run_append, run_append, h2]
    simp only [Bool.false_or, any_isTermination]
  · intro anySched
    exact (consistent_deregistrations s _
      (run_consistent env.serviceDeregister s anySched _ ⟨rfl, hno⟩)).2.1
  · intro anySched hint hterm
    have hq := run_quiet env.serviceDeregister anySched
      (Process.start s (NewService env mux name tags port).trace) ⟨rfl, Or.inl rfl⟩
      (no_termination_of_not_mem anySched hint hterm)
    rw [hq.2]
    exact hno

/-- C7, amended, at concrete inputs: two SIGTERM, one SIGINT and one SIGUSR1
(signal 10, ignored by a Go process), with steps of the task in between, give
one deregistration call. -/
theorem deregistration_count_witness :
    (deregistrations (run (Env.accepting sampleID).serviceDeregister startedProcess
      ([.shutdownStep] ++
        [.deliver (.other 10 false), .deliver .SIGTERM, .deliver .SIGTERM, .shutdownStep,
          .deliver .SIGINT, .shutdownStep, .deliver .SIGTERM] ++
        [.shutdownStep, .shutdownStep, .shutdownStep])).trace).length = 1 :=
  (deregistration_count (Env.accepting sampleID) [] "orders-svc" ["v1", "prod"] 8080
    startedProcess (by decide)
    [.deliver (.other 10 false), .deliver .SIGTERM, .deliver .SIGTERM, .shutdownStep,
      .deliver .SIGINT, .shutdownStep, .deliver .SIGTERM]
    (by decide)).1

/-! ## Several calls in one process -/

/-- C9 as stated fails: two `NewService` calls in one process register two
instances with the agent; the second call issues a second successful
registration (and panics afterwards, in `http.HandleFunc`). -/
theorem single_instance_counterexample :
    registeredBy (NewServiceSeq false [] twoCalls) =
      [serviceRegistration sampleID "orders-svc" ["v1", "prod"] 8080,
       serviceRegistration otherID "orders-svc" ["v1", "prod"] 8081] := by
  decide

/-- A mux that holds the pattern does not accept it again. -/
theorem not_accepts_of_mem (conflicts : String → String → Bool) (mux : ServeMux)
    (pattern : String) (h : pattern ∈ mux.patterns) :
    ¬ mux.accepts conflicts pattern = true := by
  intro hacc
  unfold ServeMux.accepts at hacc
  rw [List.all_eq_true] at hacc
  have := hacc pattern h
  simp at this

/-- What one call of `NewService` leaves behind.  The agent accepted one
registration when the call returned a service or panicked, and none
otherwise.  A call that returned a service left `/health` on the mux; any
other call left the mux as it was.  A returned service carries the ID of the
accepted descriptor. -/
theorem call_facts (env : Env) (mux : ServeMux) (name : String) (tags : List String)
    (port : Int) :
    (registered (NewService env mux name tags port).trace).length =
        (NewService env mux name tags port).service.toList.length +
          (if (NewService env mux name tags port).panics then 1 else 0) ∧
    (∀ s, (NewService env mux name tags port).service = some s →
        "/health" ∈ (NewService env mux name tags port).mux.patterns ∧
        mux.accepts env.conflicts "/health" = true ∧
        (registered (NewService env mux name tags port).trace).map
          AgentServiceRegistration.ID = [s.ID]) ∧
    ((NewService env mux name tags port).service = none →
        (NewService env mux name tags port).mux = mux) := by
  cases hc : env.newClient with
  | error e =>
    simp [NewService, hc, Run.service, Run.panics, registered]
  | ok c =>
    cases hid : env.generateUUID with
    | error e =>
      simp [NewService, hc, hid, Run.service, Run.panics, registered]
    | ok id =>
      cases hreg : env.serviceRegister c (serviceRegistration id name tags port) with
      | some e =>
        simp [NewService, hc, hid, hreg, Run.service, Run.panics, registered]
      | none =>
        by_cases hacc : mux.accepts env.conflicts "/health" = true
        · have h := newService_success env mux name tags port c id hc hid hreg hacc
          simp only [Run.service, Run.panics, h.1, h.2.1, h.2.2]
          simp [registered, ServeMux.patterns, serviceRegistration, hacc]
        · have h := newService_duplicate env mux name tags port c id hc hid hreg hacc
          have hm : (NewService env mux name tags port).mux = mux := by
            simp [NewService, hc, hid, hreg, ServeMux.HandleFunc, hacc]
          simp only [Run.service, Run.panics, h.1, h.2, hm]
          simp [registered]

/-- Once `/health` is on the default mux no later call returns a service. -/
theorem no_service_after_health (recovers : Bool) (calls : List Call) (mux : ServeMux)
    (h : "/health" ∈ mux.patterns) : servicesOf (NewServiceSeq recovers mux calls) = [] := by
  induction calls generalizing mux with
  | nil => rfl
  | cons c cs ih =>
    have hf := call_facts c.env mux c.serviceName c.serviceTags c.servicePort
    have hnone : (NewService c.env mux c.serviceName c.serviceTags c.servicePort).service =
        none := by
      cases hs : (NewService c.env mux c.serviceName c.serviceTags c.servicePort).service with
      | none => rfl
      | some s => exact absurd (hf.2.1 s hs).2.1 (not_accepts_of_mem _ mux "/health" h)
    have hmux := hf.2.2 hnone
    unfold NewServiceSeq
    simp only []
    split
    · split
      · simp only [servicesOf, List.filterMap_cons, hnone]
        rw [hmux]
        exact ih mux h
      · simp only [servicesOf, List.filterMap_cons, hnone, List.filterMap_nil]
    · simp only [servicesOf, List.filterMap_cons, hnone]
      rw [hmux]
      exact ih mux h

/-- Over a sequence of calls: at most one service is returned, and the agent
accepted as many registrations as services were returned and calls
panicked. -/
theorem newServiceSeq_counts (recovers : Bool) (calls : List Call) (mux : ServeMux) :
    (servicesOf (NewServiceSeq recovers mux calls)).length ≤ 1 ∧
    (registeredBy (NewServiceSeq recovers mux calls)).length =
      (servicesOf (NewServiceSeq recovers mux calls)).length +
        ((NewServiceSeq recovers mux calls).filter Run.panics).length ∧
    (recovers = false →
      ((NewServiceSeq recovers mux calls).filter Run.panics).length ≤ 1) := by
  induction calls generalizing mux with
  | nil => simp [NewServiceSeq, servicesOf, registeredBy]
  | cons c cs ih =>
    have hf := call_facts c.env mux c.serviceName c.serviceTags c.servicePort
    have hrest := ih (NewService c.env mux c.serviceName c.serviceTags c.servicePort).mux
    have hafter : ∀ s, (NewService c.env mux c.serviceName c.serviceTags
        c.servicePort).service = some s →
        servicesOf (NewServiceSeq recovers
          (NewService c.env mux c.serviceName c.serviceTags c.servicePort).mux cs) = [] :=
      fun s hs => no_service_after_health recovers cs _ (hf.2.1 s hs).1
    unfold NewServiceSeq
    simp only []
    cases ho : (NewService c.env mux c.serviceName c.serviceTags c.servicePort).outcome with
    | panicked =>
      have hsvc : (NewService c.env mux c.serviceName c.serviceTags c.servicePort).service =
          none := by simp [Run.service, ho]
      have hpan : (NewService c.env mux c.serviceName c.serviceTags c.servicePort).panics =
          true := by simp [Run.panics, ho]
      have hreg := hf.1
      rw [hsvc, hpan] at hreg
      simp only [Option.toList, List.length_nil, if_true, Nat.zero_add] at hreg
      cases recovers with
      | true =>
        simp only [if_true, servicesOf, List.filterMap_cons, hsvc, registeredBy,
          List.length_append, List.filter_cons, hpan, List.length_cons]
        simp only [servicesOf] at hrest
        refine ⟨hrest.1, ?_, ?_⟩
        · omega
        · intro h
          cases h
      | false =>
        simp [servicesOf, hsvc, registeredBy, hpan, hreg]
    | returned sv err =>
      have hpan : (NewService c.env mux c.serviceName c.serviceTags c.servicePort).panics =
          false := by simp [Run.panics, ho]
      have hreg := hf.1
      rw [hpan] at hreg
      simp only [Bool.false_eq_true, if_false, Nat.add_zero] at hreg
      cases hs : (NewService c.env mux c.serviceName c.serviceTags c.servicePort).service with
      | none =>
        rw [hs] at hreg
        simp only [Option.toList, List.length_nil] at hreg
        simp only [servicesOf, List.filterMap_cons, hs, registeredBy, List.length_append,
          List.filter_cons, hpan, Bool.false_eq_true, if_false]
        simp only [servicesOf] at hrest
        refine ⟨hrest.1, ?_, hrest.2.2⟩
        omega
      | some s =>
        rw [hs] at hreg
        simp only [Option.toList, List.length_cons, List.length_nil, Nat.zero_add] at hreg
        have hnil := hafter s hs
        simp only [servicesOf] at hnil hrest
        simp only [servicesOf, List.filterMap_cons, hs, registeredBy, List.length_append,
          List.filter_cons, hpan, Bool.false_eq_true, if_false, hnil, List.length_cons,
          List.length_nil]
        rw [hnil] at hrest
        simp only [List.length_nil, Nat.zero_add] at hrest
        refine ⟨by omega, ?_, hrest.2.2⟩
        omega

/-- No step of the process changes the service value it holds. -/
theorem step_svc (dereg : Client → String → Option GoError) (p : Process) (a : Action) :
    (step dereg p a).svc = p.svc := by
  obtain ⟨svc, listener, shutdown, chan, trace, term⟩ := p
  cases term with
  | some t => rfl
  | none =>
    cases a with
    | deliver sig =>
      simp only [step, deliver]
      split
      · split
        · rfl
        · split <;> rfl
      · split <;> rfl
    | shutdownStep =>
      cases shutdown with
      | spawned => rfl
      | awaiting => cases chan <;> rfl
      | signalled => rfl
      | deregReturned e => cases e <;> rfl
      | finished => rfl
    | listenerBound => cases listener <;> rfl
    | listenReturns e => cases listener <;> rfl
    | listenerStep => cases listener <;> rfl

/-- Every run of a sequence is a run of `NewService`. -/
theorem mem_newServiceSeq (recovers : Bool) (calls : List Call) (mux : ServeMux) (r : Run)
    (h : r ∈ NewServiceSeq recovers mux calls) :
    ∃ (c : Call) (m : ServeMux), r = NewService c.env m c.serviceName c.serviceTags
      c.servicePort := by
  induction calls generalizing mux with
  | nil => simp [NewServiceSeq] at h
  | cons c cs ih =>
    unfold NewServiceSeq at h
    simp only [] at h
    split at h
    · split at h
      · rcases List.mem_cons.mp h with h1 | h1
        · exact ⟨c, mux, h1⟩
        · exact ih _ h1
      · simp only [List.mem_singleton] at h
        exact ⟨c, mux, h⟩
    · rcases List.mem_cons.mp h with h1 | h1
      · exact ⟨c, mux, h1⟩
      · exact ih _ h1

/-- C9, amended: in every sequence of `NewService` calls made in one process
at most one call returns a service, so at most one `Service` exists per
process, and the ID of a service is never changed after it is assigned: it is
the ID of the descriptor the agent accepted, and it stays so under every
schedule of the background tasks.  The registry agent, however, can hold more
than one instance of the process: it accepted as many registrations as
services were returned and calls panicked, which is at most two when a panic
ends the process. -/
theorem at_most_one_service (recovers : Bool) (mux : ServeMux) (calls : List Call) :
    (servicesOf (NewServiceSeq recovers mux calls)).length ≤ 1 ∧
    (registeredBy (NewServiceSeq recovers mux calls)).length =
      (servicesOf (NewServiceSeq recovers mux calls)).length +
        ((NewServiceSeq recovers mux calls).filter Run.panics).length ∧
    (recovers = false → (registeredBy (NewServiceSeq recovers mux calls)).length ≤ 2) ∧
    (∀ r ∈ NewServiceSeq recovers mux calls, ∀ s, r.service = some s →
      (registered r.trace).map AgentServiceRegistration.ID = [s.ID] ∧
      ∀ (dereg : Client → String → Option GoError) (sched : List Action),
        (run dereg (Process.start s r.trace) sched).svc = s) := by
  have hcounts := newServiceSeq_counts recovers calls mux
  refine ⟨hcounts.1, hcounts.2.1, ?_, ?_⟩
  · intro hrec
    have h1 := hcounts.1
    have h2 := hcounts.2.1
    have h3 := hcounts.2.2 hrec
    omega
  · intro r hr s hs
    obtain ⟨c, m, hrun⟩ := mem_newServiceSeq recovers calls mux r hr
    subst hrun
    refine ⟨((call_facts c.env m c.serviceName c.serviceTags c.servicePort).2.1 s hs).2.2, ?_⟩
    intro dereg sched
    have hsvc : ∀ (l : List Action) (p : Process), (run dereg p l).svc = p.svc := by
      intro l
      induction l with
      | nil => intro p; rfl
      | cons a rest ih =>
        intro p
        show (run dereg (step dereg p a) rest).svc = p.svc
        rw [ih, step_svc]
    rw [hsvc]
    rfl

/-- C9, amended, at the two calls of `twoCalls`: one service exists, and the
agent accepted two registrations. -/
theorem at_most_one_service_witness :
    (servicesOf (NewServiceSeq false [] twoCalls)).length ≤ 1 ∧
    (registeredBy (NewServiceSeq false [] twoCalls)).length ≤ 2 :=
  ⟨(at_most_one_service false [] twoCalls).1,
    (at_most_one_service false [] twoCalls).2.2.1 rfl⟩

end ConsulService
